import Mathlib

/-!
Verification development for the kubectl-graph graph-construction engine.

The definitions below are a shallow embedding, in Lean, of the Go sources:
  pkg/graph/graph.go      (graph store: Node, Relationship, Graph.Node,
                           Graph.Relationship, Relationship.Attribute,
                           NewGraph, Graph.Unstructured, ToUID)
  pkg/graph/core.go       (CoreV1Graph producers)
  pkg/graph/networking.go (NetworkingV1Graph producers)
  route producer          (RouteV1Graph.Route)
  pkg/graph/templates/cypher.tmpl (node / relationship / finalize blocks,
                           interpreted with standard Cypher semantics)

Go maps are embedded as association lists; Go pointers to relationships are
embedded as (bucket key, index) handles into the store; in-place mutation is
embedded as explicit state passing.  Go map iteration order is not semantically
relevant to any property proved here (all properties are order independent),
so folds iterate association lists in list order.
-/

set_option linter.unusedVariables false
set_option linter.unnecessarySimpa false

namespace KubectlGraph

/-! ## Association-list helpers (embedding Go maps) -/

/-- Lookup in an association list (Go map read `m[k]`, with `ok` as `isSome`). -/
def getA {α : Type} (l : List (String × α)) (k : String) : Option α :=
  match l with
  | [] => none
  | (k2, v) :: rest => if k2 = k then some v else getA rest k

/-- Insert/overwrite in an association list (Go map write `m[k] = v`). -/
def setA {α : Type} (l : List (String × α)) (k : String) (v : α) : List (String × α) :=
  match l with
  | [] => [(k, v)]
  | (k2, v2) :: rest => if k2 = k then (k, v) :: rest else (k2, v2) :: setA rest k v

/-- Replace the element at index `i` (embedding mutation through a Go pointer
into a slice element). -/
def updateAt {α : Type} (l : List α) (i : Nat) (f : α → α) : List α :=
  match l, i with
  | [], _ => []
  | x :: rest, 0 => f x :: rest
  | x :: rest, n + 1 => x :: updateAt rest n f

/-! ## Kubernetes schema helpers (k8s.io/apimachinery schema package) -/

/-- `schema.GroupVersionKind`. -/
structure GroupVersionKind where
  group : String
  version : String
  kind : String
deriving Repr, DecidableEq

/-- `GroupKind.String()`: `Kind` when the group is empty, else `Kind "." Group`. -/
def GroupVersionKind.groupKindString (gvk : GroupVersionKind) : String :=
  if gvk.group = "" then gvk.kind else gvk.kind ++ "." ++ gvk.group

/-- `GroupVersionKind.ToAPIVersionAndKind()`: apiVersion is `Version` for the
empty group, else `Group "/" Version`. -/
def GroupVersionKind.toAPIVersionAndKind (gvk : GroupVersionKind) : String × String :=
  (if gvk.group = "" then gvk.version else gvk.group ++ "/" ++ gvk.version, gvk.kind)

/-- Split a character list at every occurrence of `c` (the behavior of
`strings.Split` for a one-character separator, used only with `/`). -/
@[irreducible] def splitOnChar (c : Char) : List Char → List (List Char)
  | [] => [[]]
  | x :: xs =>
    match splitOnChar c xs with
    | [] => [[]]
    | y :: ys => if x = c then [] :: y :: ys else (x :: y) :: ys

/-- `schema.FromAPIVersionAndKind`: split the apiVersion on `/`; one segment
means core group, two segments mean `group/version`, anything else yields the
zero GroupVersion (`ParseGroupVersion` rejects two or more slashes). -/
def fromAPIVersionAndKind (apiVersion kind : String) : GroupVersionKind :=
  match (splitOnChar '/' apiVersion.data).map String.mk with
  | [v] => ⟨"", v, kind⟩
  | [g, v] => ⟨g, v, kind⟩
  | _ => ⟨"", "", kind⟩

/-! ## Object metadata (the `metav1.Object` getters used by the engine) -/

/-- `metav1.OwnerReference` (the fields the engine reads). -/
structure OwnerReference where
  apiVersion : String
  kind : String
  name : String
  uid : String
deriving Repr, DecidableEq

/-- The `metav1.Object` view of a resource: exactly the getters `Graph.Node`
and the producers call.  `nspace` embeds `GetNamespace` (namespace is a Lean
keyword). -/
structure ObjectMeta where
  name : String := ""
  nspace : String := ""
  uid : String := ""
  clusterName : String := ""
  labels : List (String × String) := []
  annotations : List (String × String) := []
  ownerReferences : List OwnerReference := []
deriving Repr, DecidableEq

/-! ## The graph store (graph.go) -/

/-- `type Node v1.ObjectReference`: the fields `Graph.Node` populates
(`APIVersion`, `Kind`, `Name`, `Namespace`, `UID`); the remaining
`ObjectReference` fields are never written by the engine. -/
structure Node where
  apiVersion : String
  kind : String
  name : String
  nspace : String
  uid : String
deriving Repr, DecidableEq

/-- The two `v1.ObjectReference` fields (`Kind`, `UID`) that
`Graph.Relationship` stores for each endpoint. -/
structure Ref where
  kind : String
  uid : String
deriving Repr, DecidableEq

/-- `Relationship{From, Type, To, Attr}`. -/
structure Relationship where
  fromRef : Ref
  relType : String
  toRef : Ref
  attr : List (String × String)
deriving Repr, DecidableEq

/-- `Graph`: `Nodes` is `map[cluster]map[namespace]map[uid]*Node`,
`Relationships` is `map[fromUID][]*Relationship`. -/
structure Graph where
  nodes : List (String × List (String × List (String × Node)))
  relationships : List (String × List Relationship)
deriving Repr, DecidableEq

def emptyGraph : Graph := ⟨[], []⟩

/-- The nested map write `g.Nodes[cluster][ns][uid] = node` (allocating the
intermediate maps as graph.go does). -/
def insertNode (g : Graph) (cluster ns uid : String) (node : Node) : Graph :=
  let nss := (getA g.nodes cluster).getD []
  let bucket := (getA nss ns).getD []
  { g with nodes := setA g.nodes cluster (setA nss ns (setA bucket uid node)) }

def lookupNode (g : Graph) (cluster ns uid : String) : Option Node :=
  match getA g.nodes cluster with
  | none => none
  | some nss =>
    match getA nss ns with
    | none => none
    | some bucket => getA bucket uid

/-- Whether any bucket of the store holds a node under `uid`. -/
def containsUID (g : Graph) (uid : String) : Bool :=
  g.nodes.any (fun c => c.2.any (fun ns => ns.2.any (fun p => p.1 == uid)))

/-- A handle to a stored relationship: the Go `*Relationship` is embedded as
the bucket key plus the index inside that bucket. -/
abbrev RelHandle := String × Nat

def getRel (g : Graph) (h : RelHandle) : Option Relationship :=
  ((getA g.relationships h.1).getD []).get? h.2

/-- `Graph.Relationship`: scan the `from.UID` bucket for an edge with the same
`To.UID`; return the existing edge if found, otherwise append a fresh edge
with an empty attribute map. -/
def graphRelationship (g : Graph) (fromNode : Node) (label : String) (toNode : Node) :
    Graph × RelHandle :=
  let bucket := (getA g.relationships fromNode.uid).getD []
  match bucket.findIdx? (fun r => r.toRef.uid = toNode.uid) with
  | some i => (g, (fromNode.uid, i))
  | none =>
    let r : Relationship :=
      ⟨⟨fromNode.kind, fromNode.uid⟩, label, ⟨toNode.kind, toNode.uid⟩, []⟩
    ({ g with relationships := setA g.relationships fromNode.uid (bucket ++ [r]) },
     (fromNode.uid, bucket.length))

/-- `Relationship.Attribute`: set one key of the attribute map of the edge the
handle points to. -/
def relAttribute (g : Graph) (h : RelHandle) (key value : String) : Graph :=
  let bucket := (getA g.relationships h.1).getD []
  { g with relationships := (setA g.relationships h.1
      (updateAt bucket h.2 (fun r => { r with attr := setA r.attr key value }))) }

/-- The node record `Graph.Node` constructs from a gvk and an object. -/
def nodeOf (gvk : GroupVersionKind) (obj : ObjectMeta) : Node :=
  ⟨gvk.toAPIVersionAndKind.1, gvk.toAPIVersionAndKind.2, obj.name, obj.nspace, obj.uid⟩

/-- The effective cluster name: `Graph.Node` substitutes the API host when the
object carries none. -/
def effCluster (host : String) (obj : ObjectMeta) : String :=
  if obj.clusterName = "" then host else obj.clusterName

/-- The body of `Graph.Node` without the owner walk.  The recursive call that
`Graph.Node` makes for an owner reference passes a fresh `ObjectMeta` that has
no owner references of its own, so that call is embedded by this function. -/
def graphNodeOwner (host : String) (g : Graph) (gvk : GroupVersionKind) (obj : ObjectMeta) :
    Graph × Node :=
  let node := nodeOf gvk obj
  if gvk.groupKindString = "Namespace" then (g, node)
  else (insertNode g (effCluster host obj) obj.nspace obj.uid node, node)

/-- `Graph.Node`: build the node record; return it unstored for group-kind
`Namespace`; otherwise store it (overwriting any record under the same
cluster/namespace/uid), then for every owner reference upsert a stub node
(name from the reference, namespace from the child) and create the
owner-to-child relationship labeled with the child kind. -/
def graphNode (host : String) (g : Graph) (gvk : GroupVersionKind) (obj : ObjectMeta) :
    Graph × Node :=
  let node := nodeOf gvk obj
  if gvk.groupKindString = "Namespace" then (g, node)
  else
    let g1 := insertNode g (effCluster host obj) obj.nspace obj.uid node
    let g2 := obj.ownerReferences.foldl
      (fun acc oref =>
        let og := graphNodeOwner host acc (fromAPIVersionAndKind oref.apiVersion oref.kind)
          { name := oref.name, nspace := obj.nspace, uid := oref.uid }
        (graphRelationship og.1 og.2 gvk.toAPIVersionAndKind.2 node).1)
      g1
    (g2, node)

/-! ## ToUID (graph.go) and the MD5 hash it uses

`ToUID` joins its inputs with `"-"`, MD5-hashes the joined string (the Go
standard library `crypto/md5`, RFC 1321, embedded below over `Nat` with
explicit `% 2^32`), renders the 16-byte digest as 32 lowercase hex characters,
and regroups them as 8-4-4-4-12. -/

/-- Truncation to 32 bits. -/
def u32 (n : Nat) : Nat := n % 4294967296

/-- 32-bit left rotation (operand assumed < 2^32). -/
def rotl32 (x c : Nat) : Nat := u32 (x * 2 ^ c + x / 2 ^ (32 - c))

/-- The 64 MD5 sine-table constants. -/
def md5K : List Nat :=
  [0xd76aa478, 0xe8c7b756, 0x242070db, 0xc1bdceee,
   0xf57c0faf, 0x4787c62a, 0xa8304613, 0xfd469501,
   0x698098d8, 0x8b44f7af, 0xffff5bb1, 0x895cd7be,
   0x6b901122, 0xfd987193, 0xa679438e, 0x49b40821,
   0xf61e2562, 0xc040b340, 0x265e5a51, 0xe9b6c7aa,
   0xd62f105d, 0x02441453, 0xd8a1e681, 0xe7d3fbc8,
   0x21e1cde6, 0xc33707d6, 0xf4d50d87, 0x455a14ed,
   0xa9e3e905, 0xfcefa3f8, 0x676f02d9, 0x8d2a4c8a,
   0xfffa3942, 0x8771f681, 0x6d9d6122, 0xfde5380c,
   0xa4beea44, 0x4bdecfa9, 0xf6bb4b60, 0xbebfbc70,
   0x289b7ec6, 0xeaa127fa, 0xd4ef3085, 0x04881d05,
   0xd9d4d039, 0xe6db99e5, 0x1fa27cf8, 0xc4ac5665,
   0xf4292244, 0x432aff97, 0xab9423a7, 0xfc93a039,
   0x655b59c3, 0x8f0ccc92, 0xffeff47d, 0x85845dd1,
   0x6fa87e4f, 0xfe2ce6e0, 0xa3014314, 0x4e0811a1,
   0xf7537e82, 0xbd3af235, 0x2ad7d2bb, 0xeb86d391]

/-- The 64 MD5 per-round shift amounts. -/
def md5S : List Nat :=
  [7, 12, 17, 22, 7, 12, 17, 22, 7, 12, 17, 22, 7, 12, 17, 22,
   5, 9, 14, 20, 5, 9, 14, 20, 5, 9, 14, 20, 5, 9, 14, 20,
   4, 11, 16, 23, 4, 11, 16, 23, 4, 11, 16, 23, 4, 11, 16, 23,
   6, 10, 15, 21, 6, 10, 15, 21, 6, 10, 15, 21, 6, 10, 15, 21]

structure MD5State where
  a : Nat
  b : Nat
  c : Nat
  d : Nat
deriving Repr, DecidableEq

/-- One of the 64 MD5 operations on state `(a,b,c,d)` with message-word
accessor `m`. -/
def md5Round (m : Nat → Nat) (st : MD5State) (i : Nat) : MD5State :=
  let mask := 4294967295
  let f :=
    if i < 16 then (st.b &&& st.c) ||| ((mask ^^^ st.b) &&& st.d)
    else if i < 32 then (st.d &&& st.b) ||| ((mask ^^^ st.d) &&& st.c)
    else if i < 48 then st.b ^^^ st.c ^^^ st.d
    else st.c ^^^ (st.b ||| (mask ^^^ st.d))
  let gi :=
    if i < 16 then i
    else if i < 32 then (5 * i + 1) % 16
    else if i < 48 then (3 * i + 5) % 16
    else (7 * i) % 16
  let fv := u32 (f + st.a + md5K.getD i 0 + m gi)
  ⟨st.d, u32 (st.b + rotl32 fv (md5S.getD i 0)), st.b, st.c⟩

/-- Little-endian 32-bit word from four message bytes. -/
def md5Word (chunk : List Nat) (j : Nat) : Nat :=
  chunk.getD (4 * j) 0 + 256 * chunk.getD (4 * j + 1) 0 +
    65536 * chunk.getD (4 * j + 2) 0 + 16777216 * chunk.getD (4 * j + 3) 0

/-- Process one 64-byte chunk. -/
def md5Chunk (st : MD5State) (chunk : List Nat) : MD5State :=
  let r := (List.range 64).foldl (md5Round (md5Word chunk)) st
  ⟨u32 (st.a + r.a), u32 (st.b + r.b), u32 (st.c + r.c), u32 (st.d + r.d)⟩

/-- Split a byte list into 64-byte chunks. -/
def chunks64 (l : List Nat) : List (List Nat) :=
  if h : l = [] then [] else l.take 64 :: chunks64 (l.drop 64)
termination_by l.length
decreasing_by
  simp only [List.length_drop]
  have : 0 < l.length := List.length_pos.mpr h
  omega

/-- MD5 padding: a `0x80` byte, zeros to 56 mod 64, then the original bit
length as eight little-endian bytes. -/
def md5Pad (msg : List Nat) : List Nat :=
  let lenBits := msg.length * 8
  let zeros := (56 + 64 - (msg.length + 1) % 64) % 64
  msg ++ [0x80] ++ List.replicate zeros 0 ++
    ((List.range 8).map (fun i => lenBits / 2 ^ (8 * i) % 256))

def md5Init : MD5State := ⟨0x67452301, 0xefcdab89, 0x98badcfe, 0x10325476⟩

/-- Little-endian serialization of one 32-bit word. -/
def wordLE (w : Nat) : List Nat :=
  [w % 256, w / 256 % 256, w / 65536 % 256, w / 16777216 % 256]

/-- `md5.Sum`: the 16 digest bytes of a byte message. -/
def md5Sum (msg : List Nat) : List Nat :=
  let st := (chunks64 (md5Pad msg)).foldl md5Chunk md5Init
  wordLE st.a ++ wordLE st.b ++ wordLE st.c ++ wordLE st.d

/-- UTF-8 encoding of one character (Go strings are UTF-8 byte slices). -/
def utf8Bytes (c : Char) : List Nat :=
  let n := c.toNat
  if n < 128 then [n]
  else if n < 2048 then [192 + n / 64, 128 + n % 64]
  else if n < 65536 then [224 + n / 4096, 128 + n / 64 % 64, 128 + n % 64]
  else [240 + n / 262144, 128 + n / 4096 % 64, 128 + n / 64 % 64, 128 + n % 64]

def strBytes (s : String) : List Nat := (s.data.map utf8Bytes).flatten

def hexDigit (n : Nat) : Char :=
  match n with
  | 0 => '0' | 1 => '1' | 2 => '2' | 3 => '3'
  | 4 => '4' | 5 => '5' | 6 => '6' | 7 => '7'
  | 8 => '8' | 9 => '9' | 10 => 'a' | 11 => 'b'
  | 12 => 'c' | 13 => 'd' | 14 => 'e' | _ => 'f'

/-- `fmt.Sprintf("%x", ...)` on one byte: two lowercase hex digits. -/
def byteHex (b : Nat) : List Char := [hexDigit (b / 16), hexDigit (b % 16)]

/-- The 32-character lowercase hex rendering of the MD5 digest of a string. -/
def md5sumHex (s : String) : List Char := ((md5Sum (strBytes s)).map byteHex).flatten

/-- `strings.Join(input, "-")`. -/
def joinDash (input : List String) : String := String.intercalate "-" input

/-- The 8-4-4-4-12 regrouping of the 32 hex characters
(`md5sum[:8]`, `[8:12]`, `[12:16]`, `[16:20]`, `[20:]`, joined by `"-"`). -/
def toUIDofString (s : String) : String :=
  let h := md5sumHex s
  String.mk (h.take 8 ++ ['-'] ++ (h.drop 8).take 4 ++ ['-'] ++ (h.drop 12).take 4 ++
    ['-'] ++ (h.drop 16).take 4 ++ ['-'] ++ h.drop 20)

/-- `ToUID`: join the inputs with `"-"`, hash, regroup. -/
def toUID (input : List String) : String := toUIDofString (joinDash input)

/-- A character of the lowercase hex alphabet (`0`-`9` or `a`-`f`). -/
def isHexChar (c : Char) : Bool :=
  (48 ≤ c.toNat && c.toNat ≤ 57) || (97 ≤ c.toNat && c.toNat ≤ 102)

/-- The canonical 8-4-4-4-12 lowercase-hex identifier shape. -/
def uidFormat (s : String) : Prop :=
  ∃ p1 p2 p3 p4 p5 : List Char,
    s.data = p1 ++ '-' :: (p2 ++ '-' :: (p3 ++ '-' :: (p4 ++ '-' :: p5))) ∧
    p1.length = 8 ∧ p2.length = 4 ∧ p3.length = 4 ∧ p4.length = 4 ∧ p5.length = 12 ∧
    (p1 ++ p2 ++ p3 ++ p4 ++ p5).all isHexChar = true

/-! ## Typed resource data (the fields the producers read) -/

/-- `v1.Container` (only the name is used; the Image edge is commented out in
core.go). -/
structure ContainerData where
  name : String
deriving Repr, DecidableEq

/-- `v1.Pod`. -/
structure PodData where
  meta : ObjectMeta
  containers : List ContainerData
deriving Repr, DecidableEq

/-- The `v1.ObjectReference` fields read from an Endpoints target reference. -/
structure TargetRefData where
  apiVersion : String
  kind : String
  name : String
  nspace : String
  uid : String
deriving Repr, DecidableEq

structure AddressData where
  targetRef : Option TargetRefData
deriving Repr, DecidableEq

structure SubsetData where
  addresses : List AddressData
deriving Repr, DecidableEq

/-- `v1.Endpoints`. -/
structure EndpointsData where
  meta : ObjectMeta
  subsets : List SubsetData
deriving Repr, DecidableEq

/-- `v1.Service` (`Spec.Type`, `Spec.ExternalName`). -/
structure ServiceData where
  meta : ObjectMeta
  serviceType : String
  externalName : String
deriving Repr, DecidableEq

/-- `v1.Namespace`. -/
structure NamespaceData where
  meta : ObjectMeta
deriving Repr, DecidableEq

/-- `v1.NodeStatus.NodeInfo` fields used by the Node producer. -/
structure NodeInfoData where
  architecture : String
  runtimeVersion : String
  kernelVersion : String
  osImage : String
deriving Repr, DecidableEq

/-- `v1.Node` (cluster member); apiVersion/kind feed `obj.GroupVersionKind()`. -/
structure NodeData where
  apiVersion : String
  kind : String
  meta : ObjectMeta
  nodeInfo : NodeInfoData
deriving Repr, DecidableEq

/-- `metav1.LabelSelectorRequirement`. -/
structure SelectorRequirement where
  key : String
  operator : String
  values : List String
deriving Repr, DecidableEq

/-- `metav1.LabelSelector`. -/
structure LabelSelector where
  matchLabels : List (String × String)
  matchExpressions : List SelectorRequirement
deriving Repr, DecidableEq

/-- `v1.NetworkPolicyPeer`. -/
structure PolicyPeerData where
  podSelector : Option LabelSelector
  namespaceSelector : Option LabelSelector
  ipBlockCIDR : Option String
deriving Repr, DecidableEq

/-- One ingress (`From` peers) or egress (`To` peers) rule. -/
structure PolicyRuleData where
  peers : List PolicyPeerData
deriving Repr, DecidableEq

/-- `v1.NetworkPolicy`. -/
structure NetworkPolicyData where
  apiVersion : String
  kind : String
  meta : ObjectMeta
  podSelector : LabelSelector
  ingress : List PolicyRuleData
  egress : List PolicyRuleData
deriving Repr, DecidableEq

/-- `routev1.Route` (`Spec.To.Name`). -/
structure RouteData where
  apiVersion : String
  kind : String
  meta : ObjectMeta
  toName : String
deriving Repr, DecidableEq

/-! ## Label selector conversion (`metav1.LabelSelectorAsSelector`)

The selector string is used only as an opaque key into the live list API, so
its exact rendering is irrelevant to every property proved here; what is
embedded faithfully is the success/failure split: the conversion fails exactly
when a match expression carries an operator other than `In`, `NotIn`,
`Exists`, `DoesNotExist`. -/

def requirementString (r : SelectorRequirement) : Except String String :=
  if r.operator = "In" then
    .ok (r.key ++ " in (" ++ String.intercalate "," r.values ++ ")")
  else if r.operator = "NotIn" then
    .ok (r.key ++ " notin (" ++ String.intercalate "," r.values ++ ")")
  else if r.operator = "Exists" then .ok r.key
  else if r.operator = "DoesNotExist" then .ok ("!" ++ r.key)
  else .error (r.operator ++ " is not a valid pod selector operator")

def labelSelectorAsSelector (sel : LabelSelector) : Except String String :=
  let base := sel.matchLabels.map (fun kv => kv.1 ++ "=" ++ kv.2)
  let rec go (acc : List String) : List SelectorRequirement → Except String String
    | [] => .ok (String.intercalate "," acc)
    | r :: rest =>
      match requirementString r with
      | .error e => .error e
      | .ok s => go (acc ++ [s]) rest
  go base sel.matchExpressions

/-! ## The live read capability (the `kubernetes.Clientset` calls the engine
makes: get-by-namespace-and-name and list calls) -/

structure Env where
  host : String
  getEndpoints : String → String → Except String EndpointsData
  getService : String → String → Except String ServiceData
  listPods : String → String → String → Except String (List PodData)
  listNamespaces : String → Except String (List NamespaceData)

/-! ## CoreV1Graph producers (core.go) -/

/-- `CoreV1Graph.Namespace`: overwrite the UID and namespace with the name,
then `Graph.Node` under group-kind `Namespace` (which therefore never stores
the record). -/
def coreNamespace (host : String) (g : Graph) (obj : NamespaceData) : Graph × Node :=
  let meta := { obj.meta with uid := obj.meta.name, nspace := obj.meta.name }
  graphNode host g (fromAPIVersionAndKind "" "Namespace") meta

/-- `CoreV1Graph.Container`: synthetic child node keyed by
`ToUID(pod.GetUID(), container.Name)`.  (It never returns an error.) -/
def coreContainer (host : String) (g : Graph) (pod : PodData) (c : ContainerData) :
    Graph × Node :=
  graphNode host g (fromAPIVersionAndKind "" "Container")
    { uid := toUID [pod.meta.uid, c.name], nspace := pod.meta.nspace, name := c.name }

/-- `CoreV1Graph.Pod`: the pod node plus one `Container` edge per declared
container.  The error return is always `nil` (`Container` cannot fail). -/
def corePod (host : String) (g : Graph) (pod : PodData) : Graph × Except String Node :=
  let r := graphNode host g (fromAPIVersionAndKind "" "Pod") pod.meta
  let g2 := pod.containers.foldl
    (fun acc c =>
      let rc := coreContainer host acc pod c
      (graphRelationship rc.1 r.2 "Container" rc.2).1)
    r.1
  (g2, .ok r.2)

/-- `CoreV1Graph.ObjectReference`. -/
def coreObjectReference (host : String) (g : Graph) (ref : TargetRefData) : Graph × Node :=
  graphNode host g (fromAPIVersionAndKind ref.apiVersion ref.kind)
    { uid := ref.uid, name := ref.name, nspace := ref.nspace }

/-- `CoreV1Graph.Endpoints`: the endpoints node plus, for every subset address
carrying a target reference, the referenced node and an edge labeled with the
target kind.  The error return is always `nil`. -/
def coreEndpoints (host : String) (g : Graph) (obj : EndpointsData) :
    Graph × Except String Node :=
  let r := graphNode host g (fromAPIVersionAndKind "" "Endpoints") obj.meta
  let g2 := obj.subsets.foldl
    (fun acc subset =>
      subset.addresses.foldl
        (fun acc2 addr =>
          match addr.targetRef with
          | none => acc2
          | some t =>
            let rt := coreObjectReference host acc2 t
            (graphRelationship rt.1 r.2 rt.2.kind rt.2).1)
        acc)
    r.1
  (g2, .ok r.2)

/-- `CoreV1Graph.ServiceTypeClusterIP`: live get of the same-named Endpoints
in the service namespace, then a `service -> endpoints` edge labeled
`Endpoints`. -/
def coreServiceClusterIP (env : Env) (g : Graph) (obj : ServiceData) :
    Graph × Except String (Option Node) :=
  let r := graphNode env.host g (fromAPIVersionAndKind "" "Service") obj.meta
  match env.getEndpoints obj.meta.nspace obj.meta.name with
  | .error e => (r.1, .error e)
  | .ok ep =>
    let re := coreEndpoints env.host r.1 ep
    match re.2 with
    | .error e => (re.1, .error e)
    | .ok enode => ((graphRelationship re.1 r.2 "Endpoints" enode).1, .ok (some r.2))

/-- `CoreV1Graph.ServiceTypeLoadBalancer` (same body as the ClusterIP case in
core.go). -/
def coreServiceLoadBalancer (env : Env) (g : Graph) (obj : ServiceData) :
    Graph × Except String (Option Node) :=
  let r := graphNode env.host g (fromAPIVersionAndKind "" "Service") obj.meta
  match env.getEndpoints obj.meta.nspace obj.meta.name with
  | .error e => (r.1, .error e)
  | .ok ep =>
    let re := coreEndpoints env.host r.1 ep
    match re.2 with
    | .error e => (re.1, .error e)
    | .ok enode => ((graphRelationship re.1 r.2 "Endpoints" enode).1, .ok (some r.2))

/-- `CoreV1Graph.ServiceTypeExternalName`: a synthetic node whose UID is
`ToUID(obj.Spec.ExternalName)` and a `service -> external` edge labeled
`ExternalName`. -/
def coreServiceExternalName (env : Env) (g : Graph) (obj : ServiceData) :
    Graph × Except String (Option Node) :=
  let r := graphNode env.host g (fromAPIVersionAndKind "" "Service") obj.meta
  let re := graphNode env.host r.1 (fromAPIVersionAndKind "" "ExternalName")
    { uid := toUID [obj.externalName], name := obj.externalName }
  ((graphRelationship re.1 r.2 "ExternalName" re.2).1, .ok (some r.2))

/-- `CoreV1Graph.Service`: branch on `Spec.Type`; every type other than
`ClusterIP`, `LoadBalancer`, `ExternalName` falls through to `return nil, nil`
(the `NodePort` case is commented out in core.go). -/
def coreService (env : Env) (g : Graph) (obj : ServiceData) :
    Graph × Except String (Option Node) :=
  if obj.serviceType = "ClusterIP" then coreServiceClusterIP env g obj
  else if obj.serviceType = "LoadBalancer" then coreServiceLoadBalancer env g obj
  else if obj.serviceType = "ExternalName" then coreServiceExternalName env g obj
  else (g, .ok none)

/-- `CoreV1Graph.Node`: the node entity plus one synthetic fact node and edge
per hardware/software fact.  The Go source ranges over a map literal whose
iteration order is arbitrary; the fixed order below is the source text order
(order is irrelevant to every property proved here). -/
def coreNode (host : String) (g : Graph) (obj : NodeData) : Graph × Except String Node :=
  let r := graphNode host g (fromAPIVersionAndKind obj.apiVersion obj.kind) obj.meta
  let infos := [("Architecture", obj.nodeInfo.architecture),
                ("Runtime", obj.nodeInfo.runtimeVersion),
                ("Kernel", obj.nodeInfo.kernelVersion),
                ("OSImage", obj.nodeInfo.osImage)]
  let g2 := infos.foldl
    (fun acc ki =>
      let ri := graphNode host acc (fromAPIVersionAndKind "kubectl-graph/v1" ki.1)
        { uid := toUID [ki.2], name := ki.2 }
      (graphRelationship ri.1 r.2 ki.1 ri.2).1)
    r.1
  (g2, .ok r.2)

/-! ## NetworkingV1Graph producers (networking.go) -/

/-- `v1.PolicyType` (only the two constants are ever passed). -/
inductive PolicyType
  | ingressPolicy
  | egressPolicy
deriving Repr, DecidableEq

/-- `NetworkingV1Graph.Relationship`: for `Ingress` the stored edge runs
`from -> to` with color `#34A853` (plus an `ltail` hint when `from` is a
Namespace node); for `Egress` it runs `to -> from` with color `#EA4335` (plus
an `lhead` hint when `from` is a Namespace node); both get `style=dashed`. -/
def networkingRelationship (g : Graph) (fromNode : Node) (pt : PolicyType) (toNode : Node) :
    Graph :=
  match pt with
  | .ingressPolicy =>
    let r := graphRelationship g fromNode "Ingress" toNode
    let g1 := relAttribute r.1 r.2 "color" "#34A853"
    let g2 :=
      if fromNode.kind = "Namespace" then
        relAttribute g1 r.2 "ltail" ("cluster_namespace_" ++ fromNode.name)
      else g1
    relAttribute g2 r.2 "style" "dashed"
  | .egressPolicy =>
    let r := graphRelationship g toNode "Egress" fromNode
    let g1 := relAttribute r.1 r.2 "color" "#EA4335"
    let g2 :=
      if fromNode.kind = "Namespace" then
        relAttribute g1 r.2 "lhead" ("cluster_namespace_" ++ fromNode.name)
      else g1
    relAttribute g2 r.2 "style" "dashed"

/-- `NetworkingV1Graph.NetworkPolicyPeerPodSelector`: live-list running pods
in the policy namespace matching the peer pod selector, then for each matched
pod call `g.Relationship(n, v1.PolicyTypeIngress, p)` — the policy node as
`from`, the pod as `to`, and the policy type hard-coded to `Ingress`
regardless of the `policyType` parameter; finally `return nil, nil`. -/
def networkPolicyPeerPodSelector (env : Env) (g : Graph) (obj : NetworkPolicyData)
    (pt : PolicyType) (peer : PolicyPeerData) : Graph × Except String (Option Node) :=
  let r := graphNode env.host g (fromAPIVersionAndKind obj.apiVersion obj.kind) obj.meta
  match labelSelectorAsSelector (peer.podSelector.getD ⟨[], []⟩) with
  | .error e => (r.1, .error e)
  | .ok sel =>
    match env.listPods obj.meta.nspace sel "status.phase=Running" with
    | .error e => (r.1, .error e)
    | .ok pods =>
      let g2 := pods.foldl
        (fun acc pod =>
          let rp := corePod env.host acc pod
          match rp.2 with
          | .error _ => rp.1
          | .ok p => networkingRelationship rp.1 r.2 .ingressPolicy p)
        r.1
      (g2, .ok none)

/-- `NetworkingV1Graph.NetworkPolicyPeerNamespaceSelector`: live-list
namespaces matching the peer namespace selector; for each, merge the
namespace node and call `g.Relationship(ns, policyType, n)`. -/
def networkPolicyPeerNamespaceSelector (env : Env) (g : Graph) (obj : NetworkPolicyData)
    (pt : PolicyType) (peer : PolicyPeerData) : Graph × Except String (Option Node) :=
  let r := graphNode env.host g (fromAPIVersionAndKind obj.apiVersion obj.kind) obj.meta
  match labelSelectorAsSelector (peer.namespaceSelector.getD ⟨[], []⟩) with
  | .error e => (r.1, .error e)
  | .ok sel =>
    match env.listNamespaces sel with
    | .error e => (r.1, .error e)
    | .ok nss =>
      let g2 := nss.foldl
        (fun acc nsd =>
          let rn := coreNamespace env.host acc nsd
          networkingRelationship rn.1 rn.2 pt r.2)
        r.1
      (g2, .ok (some r.2))

/-- `NetworkingV1Graph.IPBlock`: synthetic node keyed by the CIDR string,
cluster name `External`. -/
def ipBlockNode (host : String) (g : Graph) (cidr : String) : Graph × Node :=
  graphNode host g (fromAPIVersionAndKind "networking.k8s.io" "IPBlock")
    { clusterName := "External", uid := toUID [cidr], name := cidr }

/-- `NetworkingV1Graph.NetworkPolicyPeerIPBlock`:
`g.Relationship(i, policyType, n)` with the IP block node as `from`. -/
def networkPolicyPeerIPBlock (env : Env) (g : Graph) (obj : NetworkPolicyData)
    (pt : PolicyType) (peer : PolicyPeerData) : Graph × Except String (Option Node) :=
  let r := graphNode env.host g (fromAPIVersionAndKind obj.apiVersion obj.kind) obj.meta
  let ri := ipBlockNode env.host r.1 (peer.ipBlockCIDR.getD "")
  (networkingRelationship ri.1 ri.2 pt r.2, .ok (some r.2))

/-- `NetworkingV1Graph.NetworkPolicyPeer`: dispatch on which selector the peer
carries (the combined namespace-and-pod-selector case is commented out in
networking.go, so a namespace selector wins even when a pod selector is also
present); a peer with no selector at all yields `nil, nil`. -/
def networkPolicyPeer (env : Env) (g : Graph) (obj : NetworkPolicyData) (pt : PolicyType)
    (peer : PolicyPeerData) : Graph × Except String (Option Node) :=
  match peer.namespaceSelector with
  | some _ => networkPolicyPeerNamespaceSelector env g obj pt peer
  | none =>
    match peer.podSelector with
    | some _ => networkPolicyPeerPodSelector env g obj pt peer
    | none =>
      match peer.ipBlockCIDR with
      | some _ => networkPolicyPeerIPBlock env g obj pt peer
      | none => (g, .ok none)

/-- An empty peer list is treated as one synthetic peer with an empty pod
selector (`allow from any peer`). -/
def rulePeers (rule : PolicyRuleData) : List PolicyPeerData :=
  if rule.peers = [] then [⟨some ⟨[], []⟩, none, none⟩] else rule.peers

/-- The inner peer loop of one rule, stopping at the first peer resolution
error (as the Go loop returns early). -/
def networkPolicyPeersLoop (env : Env) (obj : NetworkPolicyData) (pt : PolicyType) :
    Graph → List PolicyPeerData → Graph × Except String Unit
  | g2, [] => (g2, .ok ())
  | g2, peer :: more =>
    let rp := networkPolicyPeer env g2 obj pt peer
    match rp.2 with
    | .error e => (rp.1, .error e)
    | .ok _ => networkPolicyPeersLoop env obj pt rp.1 more

/-- Process the peers of the rules of one direction, stopping at the first
peer resolution error. -/
def networkPolicyRules (env : Env) (g : Graph) (obj : NetworkPolicyData) (pt : PolicyType) :
    List PolicyRuleData → Graph × Except String Unit
  | [] => (g, .ok ())
  | rule :: rest =>
    let rr := networkPolicyPeersLoop env obj pt g (rulePeers rule)
    match rr.2 with
    | .error e => (rr.1, .error e)
    | .ok _ => networkPolicyRules env rr.1 obj pt rest

/-- `NetworkingV1Graph.NetworkPolicy`: the policy node; a live list of running
pods in the policy namespace matching its pod selector, with an `Ingress`
and/or `Egress` edge per matched pod depending on which rule lists are
non-empty; then peer resolution for every ingress and egress rule. -/
def networkPolicy (env : Env) (g : Graph) (obj : NetworkPolicyData) :
    Graph × Except String Node :=
  let r := graphNode env.host g (fromAPIVersionAndKind obj.apiVersion obj.kind) obj.meta
  match labelSelectorAsSelector obj.podSelector with
  | .error e => (r.1, .error e)
  | .ok sel =>
    match env.listPods obj.meta.nspace sel "status.phase=Running" with
    | .error e => (r.1, .error e)
    | .ok pods =>
      let g2 := pods.foldl
        (fun acc pod =>
          let rp := corePod env.host acc pod
          match rp.2 with
          | .error _ => rp.1
          | .ok p =>
            let ga := if obj.ingress = [] then rp.1
                      else networkingRelationship rp.1 r.2 .ingressPolicy p
            if obj.egress = [] then ga
            else networkingRelationship ga r.2 .egressPolicy p)
        r.1
      let ri := networkPolicyRules env g2 obj .ingressPolicy obj.ingress
      match ri.2 with
      | .error e => (ri.1, .error e)
      | .ok _ =>
        let re := networkPolicyRules env ri.1 obj .egressPolicy obj.egress
        match re.2 with
        | .error e => (re.1, .error e)
        | .ok _ => (re.1, .ok r.2)

/-! ## Unstructured objects, dispatch, and NewGraph (graph.go, core.go,
networking.go) -/

/-- The unstructured content of an input object, as far as the typed
conversions (`FromUnstructured`) can see it: the conversion to a kind
succeeds exactly when the content has that kind's shape. -/
inductive Payload
  | namespaceContent
  | podContent (containers : List ContainerData)
  | endpointsContent (subsets : List SubsetData)
  | serviceContent (serviceType externalName : String)
  | nodeContent (info : NodeInfoData)
  | networkPolicyContent (podSelector : LabelSelector)
      (ingress egress : List PolicyRuleData)
  | routeContent (toName : String)
  | genericContent
  | malformedContent
deriving Repr, DecidableEq

/-- `unstructured.Unstructured` (the getters the engine reads plus the
payload). -/
structure Unstructured where
  apiVersion : String
  kind : String
  meta : ObjectMeta
  payload : Payload
deriving Repr, DecidableEq

/-- `CoreV1Graph.Unstructured`: dispatch by kind; unrecognized kinds are a
no-op; `FromUnstructured` failures surface as conversion errors. -/
def coreUnstructured (env : Env) (g : Graph) (u : Unstructured) :
    Graph × Except String Unit :=
  match u.kind, u.payload with
  | "Namespace", .namespaceContent => ((coreNamespace env.host g ⟨u.meta⟩).1, .ok ())
  | "Namespace", _ => (g, .error ("Failed to convert " ++ u.meta.name ++ " to Namespace"))
  | "Pod", .podContent cs =>
    let r := corePod env.host g ⟨u.meta, cs⟩
    (r.1, r.2.map (fun _ => ()))
  | "Pod", _ => (g, .error ("Failed to convert " ++ u.meta.name ++ " to Pod"))
  | "Endpoints", .endpointsContent ss =>
    let r := coreEndpoints env.host g ⟨u.meta, ss⟩
    (r.1, r.2.map (fun _ => ()))
  | "Endpoints", _ => (g, .error ("Failed to convert " ++ u.meta.name ++ " to Endpoints"))
  | "Service", .serviceContent ty en =>
    let r := coreService env g ⟨u.meta, ty, en⟩
    (r.1, r.2.map (fun _ => ()))
  | "Service", _ => (g, .error ("Failed to convert " ++ u.meta.name ++ " to Service"))
  | "Node", .nodeContent info =>
    let r := coreNode env.host g ⟨u.apiVersion, u.kind, u.meta, info⟩
    (r.1, r.2.map (fun _ => ()))
  | "Node", _ => (g, .error ("Failed to convert " ++ u.meta.name ++ " to Node"))
  | _, _ => (g, .ok ())

/-- `NetworkingV1Graph.Unstructured`. -/
def networkingUnstructured (env : Env) (g : Graph) (u : Unstructured) :
    Graph × Except String Unit :=
  match u.kind, u.payload with
  | "NetworkPolicy", .networkPolicyContent ps ing eg =>
    let r := networkPolicy env g ⟨u.apiVersion, u.kind, u.meta, ps, ing, eg⟩
    (r.1, r.2.map (fun _ => ()))
  | "NetworkPolicy", _ =>
    (g, .error ("Failed to convert " ++ u.meta.name ++ " to NetworkPolicy"))
  | _, _ => (g, .ok ())

/-- `Graph.Unstructured`: always create the node for the object itself first,
then dispatch to the per-group producer by apiVersion. -/
def graphUnstructured (env : Env) (g : Graph) (u : Unstructured) :
    Graph × Except String Unit :=
  let r := graphNode env.host g (fromAPIVersionAndKind u.apiVersion u.kind) u.meta
  match u.apiVersion with
  | "v1" => coreUnstructured env r.1 u
  | "networking.k8s.io/v1" => networkingUnstructured env r.1 u
  | _ => (r.1, .ok ())

/-- `NewGraph`: process every object, recording producer errors and
continuing; returns the graph and the list of recorded errors. -/
def newGraph (env : Env) (objs : List Unstructured) : Graph × List String :=
  objs.foldl
    (fun acc u =>
      let r := graphUnstructured env acc.1 u
      match r.2 with
      | .ok _ => (r.1, acc.2)
      | .error e => (r.1, acc.2 ++ [e]))
    (emptyGraph, [])

/-- `NewGraph` with `errors.NewAggregate`: `nil` when no error was recorded,
otherwise the aggregate of all recorded errors. -/
def newGraphAggregate (env : Env) (objs : List Unstructured) :
    Graph × Option (List String) :=
  let r := newGraph env objs
  (r.1, if r.2 = [] then none else some r.2)

/-! ## RouteV1Graph (route producer) -/

/-- How one `RouteV1Graph.Route` call ends: a normal return, an error return,
or the Go runtime nil-pointer dereference that `Graph.Relationship` hits when
handed a nil node (it reads `to.UID` unconditionally). -/
inductive RouteOutcome
  | okRoute (n : Node)
  | errRoute (e : String)
  | nilDeref
deriving Repr, DecidableEq

/-- `RouteV1Graph.Route`: the route node; a live get of the target service;
`CoreV1Graph.Service` on the result; then
`g.graph.Relationship(n, "Route", s)` — if `s` is nil (Service returned
`nil, nil` for an unhandled service type) this dereferences nil. -/
def routeRoute (env : Env) (g : Graph) (obj : RouteData) : Graph × RouteOutcome :=
  let r := graphNode env.host g (fromAPIVersionAndKind obj.apiVersion obj.kind) obj.meta
  match env.getService obj.meta.nspace obj.toName with
  | .error e => (r.1, .errRoute e)
  | .ok svc =>
    let rs := coreService env r.1 svc
    match rs.2 with
    | .error e => (rs.1, .errRoute e)
    | .ok none => (rs.1, .nilDeref)
    | .ok (some s) => ((graphRelationship rs.1 r.2 "Route" s).1, .okRoute r.2)

/-! ## The cypher template semantics (pkg/graph/templates/cypher.tmpl)

The template emits MERGE statements executed by the graph database; the
finalize pass of the spec is the last statement block of the template (lines
28-35).  The statements are embedded with standard Cypher semantics over a
property-graph state: `MERGE (n:L {UID: u})` matches by label and UID and
creates the node with its `ON CREATE SET` properties only when no match
exists; a property comparison with an absent (NULL) property never matches;
`MATCH ... MERGE` edge statements first collect the matching rows, then merge
the edge for each row. -/

/-- A database node: its label, `UID`, `Name`, and optional `ClusterName` /
`Namespace` properties (absent = NULL). -/
structure DBNode where
  kindLabel : String
  uid : String
  name : String
  clusterName : Option String
  nsProp : Option String
deriving Repr, DecidableEq

/-- A database edge, endpoints identified by label and UID. -/
structure DBEdge where
  fromKind : String
  fromUID : String
  label : String
  toKind : String
  toUID : String
deriving Repr, DecidableEq

structure DBState where
  dbNodes : List DBNode
  dbEdges : List DBEdge
deriving Repr, DecidableEq

/-- `MERGE (node:L {UID: u})`: create only when no node with this label and
UID exists (so `ON CREATE SET` keeps the first-created properties). -/
def insertDBNode (st : DBState) (n : DBNode) : DBState :=
  if st.dbNodes.any (fun m => m.kindLabel == n.kindLabel && m.uid == n.uid) then st
  else { st with dbNodes := st.dbNodes ++ [n] }

/-- `MERGE (a)-[:T]->(b)`: create the edge unless it already exists. -/
def insertDBEdge (st : DBState) (e : DBEdge) : DBState :=
  if st.dbEdges.any (fun e2 => e2 == e) then st
  else { st with dbEdges := st.dbEdges ++ [e] }

/-- Whether a database node has at least one incoming edge
(`NOT(()-[]->(node))` is the negation of this). -/
def hasIncoming (st : DBState) (n : DBNode) : Bool :=
  st.dbEdges.any (fun e => e.toKind == n.kindLabel && e.toUID == n.uid)

/-- The node-creation block (cypher.tmpl lines 1-18): one `Cluster` node per
cluster key, one `Namespace` node per non-empty namespace key, and one node
per stored resource; nodes in the empty-namespace bucket get no `Namespace`
property. -/
def renderNodes (g : Graph) : DBState :=
  g.nodes.foldl
    (fun st c =>
      let st1 := insertDBNode st ⟨"Cluster", c.1, c.1, none, none⟩
      c.2.foldl
        (fun st2 nsb =>
          if nsb.1 = "" then
            nsb.2.foldl
              (fun st3 p => insertDBNode st3 ⟨p.2.kind, p.2.uid, p.2.name, some c.1, none⟩)
              st2
          else
            let st3 := insertDBNode st2 ⟨"Namespace", nsb.1, nsb.1, some c.1, none⟩
            nsb.2.foldl
              (fun st4 p =>
                insertDBNode st4 ⟨p.2.kind, p.2.uid, p.2.name, some c.1, some p.2.nspace⟩)
              st3)
        st1)
    ⟨[], []⟩

/-- The relationship block (cypher.tmpl lines 23-27): for each stored
relationship, an edge between the endpoints matched by kind label and UID;
no edge when either endpoint is missing. -/
def renderEdges (g : Graph) (st : DBState) : DBState :=
  g.relationships.foldl
    (fun stb b =>
      b.2.foldl
        (fun st2 r =>
          match st2.dbNodes.find? (fun m => m.kindLabel == r.fromRef.kind && m.uid == r.fromRef.uid),
                st2.dbNodes.find? (fun m => m.kindLabel == r.toRef.kind && m.uid == r.toRef.uid) with
          | some fn, some tn =>
            insertDBEdge st2 ⟨fn.kindLabel, fn.uid, r.relType, tn.kindLabel, tn.uid⟩
          | _, _ => st2)
        stb)
    st

/-- cypher.tmpl line 29: `MATCH (cl:Cluster) WHERE cl.UID = c MATCH (node)
WHERE node.ClusterName = cl.Name AND node.Namespace IS NULL AND
NOT(()-[]->(node)) MERGE (node)-[:Cluster]->(cl)`. -/
def clusterRootStmt (st : DBState) (c : String) : DBState :=
  match st.dbNodes.find? (fun m => m.kindLabel == "Cluster" && m.uid == c) with
  | none => st
  | some cl =>
    let cands := st.dbNodes.filter
      (fun n => n.clusterName == some cl.name && n.nsProp == none && !(hasIncoming st n))
    cands.foldl
      (fun st2 n => insertDBEdge st2 ⟨n.kindLabel, n.uid, "Cluster", cl.kindLabel, cl.uid⟩)
      st

/-- cypher.tmpl line 32: `MATCH (ns:Namespace) WHERE ns.UID = ns MATCH (node)
WHERE node.Namespace = ns.Name AND NOT(()-[]->(node)) MERGE
(node)-[:Namespace]->(ns)`. -/
def nsRootStmt (st : DBState) (ns : String) : DBState :=
  match st.dbNodes.find? (fun m => m.kindLabel == "Namespace" && m.uid == ns) with
  | none => st
  | some nsn =>
    let cands := st.dbNodes.filter
      (fun n => n.nsProp == some nsn.name && !(hasIncoming st n))
    cands.foldl
      (fun st2 n => insertDBEdge st2 ⟨n.kindLabel, n.uid, "Namespace", nsn.kindLabel, nsn.uid⟩)
      st

/-- The finalize block (cypher.tmpl lines 28-35): per cluster, the
cluster-root statement, then per non-empty namespace the namespace-root
statement, in template order. -/
def cypherFinalize (g : Graph) (st : DBState) : DBState :=
  g.nodes.foldl
    (fun stc c =>
      let st1 := clusterRootStmt stc c.1
      c.2.foldl (fun st2 nsb => if nsb.1 = "" then st2 else nsRootStmt st2 nsb.1) st1)
    st

/-- The full cypher script semantics: node block, relationship block,
finalize block. -/
def cypherRun (g : Graph) : DBState :=
  cypherFinalize g (renderEdges g (renderNodes g))

/-! ## Predicates and auxiliary definitions used by the theorems -/

/-- A relationship with the given ordered endpoints exists in the store. -/
def relPairExists (g : Graph) (u1 u2 : String) : Bool :=
  g.relationships.any (fun b => b.2.any (fun r => r.fromRef.uid == u1 && r.toRef.uid == u2))

/-- A relationship with the given ordered endpoints and label exists. -/
def relExistsLabeled (g : Graph) (u1 lab u2 : String) : Bool :=
  g.relationships.any (fun b => b.2.any
    (fun r => r.fromRef.uid == u1 && r.relType == lab && r.toRef.uid == u2))

/-- How many stored relationship objects have the given ordered endpoints. -/
def countRel (g : Graph) (u1 u2 : String) : Nat :=
  (g.relationships.map
    (fun b => (b.2.filter (fun r => r.fromRef.uid == u1 && r.toRef.uid == u2)).length)).sum

/-- Well-formedness of the relationship store, true of every graph the engine
builds: bucket keys are distinct, a bucket holds only edges whose source is
the bucket key, and target UIDs inside one bucket are pairwise distinct. -/
def relWF (g : Graph) : Prop :=
  (g.relationships.map Prod.fst).Nodup ∧
  ∀ b ∈ g.relationships, (∀ r ∈ b.2, r.fromRef.uid = b.1) ∧
    b.2.Pairwise (fun r1 r2 => r1.toRef.uid ≠ r2.toRef.uid)

/-- The node record is not a core-group Namespace record (`Namespace` kind
with one of the two apiVersion strings an empty-group gvk can render to). -/
def nodeNotCoreNamespace (n : Node) : Prop :=
  ¬(n.kind = "Namespace" ∧ (n.apiVersion = "" ∨ n.apiVersion = "v1"))

/-- Every stored node satisfies `P`. -/
def storeNodesProp (P : Node → Prop) (g : Graph) : Prop :=
  ∀ c ∈ g.nodes, ∀ nsb ∈ c.2, ∀ p ∈ nsb.2, P p.2

/-- A graph predicate closed under the three store mutations the engine
performs (node upserts always go through the group-kind Namespace guard, so
only guard-passing nodes are ever inserted). -/
structure StepClosed (Q : Graph → Prop) : Prop where
  insOK : ∀ g c ns u n, nodeNotCoreNamespace n → Q g → Q (insertNode g c ns u n)
  relOK : ∀ g a l b, Q g → Q (graphRelationship g a l b).1
  attrOK : ∀ g h k v, Q g → Q (relAttribute g h k v)

/-- Store well-formedness used by the finalize theorem: a stored node record
carries the namespace of the bucket it sits in, and is never labeled
`Cluster` or `Namespace` (the engine never stores such kinds). -/
def storeWF (g : Graph) : Prop :=
  ∀ c ∈ g.nodes, ∀ nsb ∈ c.2, ∀ p ∈ nsb.2,
    p.2.nspace = nsb.1 ∧ p.2.kind ≠ "Cluster" ∧ p.2.kind ≠ "Namespace"

/-- No two database nodes share label and UID (`MERGE` guarantees this). -/
def uniquePairs (l : List DBNode) : Prop :=
  l.Pairwise (fun m1 m2 => ¬(m1.kindLabel = m2.kindLabel ∧ m1.uid = m2.uid))

/-- A database node that stands for a stored resource (not a cluster root or
namespace root). -/
def resourceLabel (n : DBNode) : Prop := n.kindLabel ≠ "Cluster" ∧ n.kindLabel ≠ "Namespace"

/-- The error component of a producer result. -/
def errOf {α : Type} (r : Except String α) : Option String :=
  match r with
  | .ok _ => none
  | .error e => some e

/-- The error an object contributes during ingest.  Producer errors come only
from conversion and live lookups, never from the graph state, so the error of
processing an object is a function of the environment and the object alone
(proved below as `graphUnstructured_err`). -/
def unstructuredErr (env : Env) (u : Unstructured) : Option String :=
  errOf (graphUnstructured env emptyGraph u).2

/-- The node record of the store behavior that claim C1 describes, which
carries labels and annotations. -/
structure SpecNode where
  apiVersion : String
  kind : String
  name : String
  nspace : String
  uid : String
  labels : List (String × String)
  annotations : List (String × String)
deriving Repr, DecidableEq

/-- The node-upsert behavior claim C1 describes, stated from its words (not
from the source): re-inserting a UID overwrites the stored record, except
that empty labels/annotations in the incoming record never erase non-empty
labels/annotations already stored for that UID. -/
def specNodeUpsert (store : List (String × SpecNode)) (incoming : SpecNode) :
    List (String × SpecNode) :=
  let merged :=
    match getA store incoming.uid with
    | some prior =>
      { incoming with
        labels := if incoming.labels = [] then prior.labels else incoming.labels,
        annotations :=
          if incoming.annotations = [] then prior.annotations else incoming.annotations }
    | none => incoming
  setA store incoming.uid merged

/-! # Theorems -/

theorem getA_setA_self {α : Type} (l : List (String × α)) (k : String) (v : α) :
    getA (setA l k v) k = some v := by
  induction l with
  | nil => simp [getA, setA]
  | cons p rest ih =>
    by_cases h : p.1 = k
    · simp [setA, getA, h]
    · simp [setA, getA, h, ih]

theorem getA_setA_ne {α : Type} (l : List (String × α)) (k k2 : String) (v : α)
    (h : k ≠ k2) : getA (setA l k v) k2 = getA l k2 := by
  induction l with
  | nil => simp [getA, setA, h]
  | cons p rest ih =>
    by_cases h2 : p.1 = k
    · simp [setA, getA, h2, h]
    · simp [setA, getA, h2, ih]

theorem isHexChar_hexDigit (n : Nat) : isHexChar (hexDigit n) = true := by
  unfold hexDigit
  split <;> decide

theorem length_md5Sum (msg : List Nat) : (md5Sum msg).length = 16 := by
  simp [md5Sum, wordLE]

theorem length_flatten_map_byteHex (l : List Nat) :
    ((l.map byteHex).flatten).length = 2 * l.length := by
  induction l with
  | nil => simp
  | cons b rest ih => simp [byteHex, ih]; omega

theorem length_md5sumHex (s : String) : (md5sumHex s).length = 32 := by
  have h16 := length_md5Sum (strBytes s)
  unfold md5sumHex
  rw [length_flatten_map_byteHex, h16]

theorem all_hex_md5sumHex (s : String) : (md5sumHex s).all isHexChar = true := by
  simp only [md5sumHex, List.all_eq_true]
  intro c hc
  rcases List.mem_flatten.mp hc with ⟨part, hp, hcp⟩
  rcases List.mem_map.mp hp with ⟨b, _, rfl⟩
  simp only [byteHex, List.mem_cons, List.not_mem_nil, or_false] at hcp
  rcases hcp with rfl | rfl
  · exact isHexChar_hexDigit _
  · exact isHexChar_hexDigit _

theorem lookupNode_insertNode (g : Graph) (c ns u : String) (n : Node) :
    lookupNode (insertNode g c ns u n) c ns u = some n := by
  simp [lookupNode, insertNode, getA_setA_self]

/-- C1: the claim asserts progressive enrichment of labels/annotations on
node re-insert.  The stored record (`type Node v1.ObjectReference`) has no
labels or annotations at all, and `Graph.Node` overwrites unconditionally:
the whole store state after the two inserts is identical whether or not the
first record carried labels, while the upsert the claim describes
(`specNodeUpsert`) retains the first record's labels. -/
theorem c1_counterexample :
    (graphNode "h" (graphNode "h" emptyGraph ⟨"", "v1", "Pod"⟩
        (ObjectMeta.mk "a" "ns" "u" "" [("a", "1")] [] [])).1 ⟨"", "v1", "Pod"⟩
        (ObjectMeta.mk "b" "ns" "u" "" [] [] [])).1 =
      (graphNode "h" (graphNode "h" emptyGraph ⟨"", "v1", "Pod"⟩
        (ObjectMeta.mk "a" "ns" "u" "" [] [] [])).1 ⟨"", "v1", "Pod"⟩
        (ObjectMeta.mk "b" "ns" "u" "" [] [] [])).1 ∧
    lookupNode (graphNode "h" (graphNode "h" emptyGraph ⟨"", "v1", "Pod"⟩
        (ObjectMeta.mk "a" "ns" "u" "" [("a", "1")] [] [])).1 ⟨"", "v1", "Pod"⟩
        (ObjectMeta.mk "b" "ns" "u" "" [] [] [])).1 "h" "ns" "u" =
      some (Node.mk "v1" "Pod" "b" "ns" "u") ∧
    (getA (specNodeUpsert (specNodeUpsert []
        (SpecNode.mk "v1" "Pod" "a" "ns" "u" [("a", "1")] []))
        (SpecNode.mk "v1" "Pod" "b" "ns" "u" [] [])) "u").map SpecNode.labels =
      some [("a", "1")] := by
  refine ⟨?_, ?_, ?_⟩ <;> decide

/-- C1 (amended): re-inserting a UID overwrites the stored record
unconditionally with a record built solely from the incoming object's
apiVersion, kind, name, namespace and uid; labels and annotations are not
part of the stored record and never influence the store. -/
theorem c1_overwrite_no_enrichment (host : String) (g : Graph) (gvk : GroupVersionKind)
    (obj : ObjectMeta) (la aa : List (String × String))
    (hg : gvk.groupKindString ≠ "Namespace") (ho : obj.ownerReferences = []) :
    graphNode host g gvk { obj with labels := la, annotations := aa } =
      graphNode host g gvk obj ∧
    lookupNode (graphNode host g gvk obj).1 (effCluster host obj) obj.nspace obj.uid =
      some (nodeOf gvk obj) := by
  constructor
  · cases obj
    rfl
  · simp only [graphNode, if_neg hg, ho, List.foldl_nil]
    exact lookupNode_insertNode g (effCluster host obj) obj.nspace obj.uid (nodeOf gvk obj)

theorem c1_overwrite_no_enrichment_witness :
    (⟨"", "v1", "Pod"⟩ : GroupVersionKind).groupKindString ≠ "Namespace" ∧
    (ObjectMeta.mk "a" "ns" "u" "" [] [] []).ownerReferences = [] ∧
    (graphNode "h" emptyGraph ⟨"", "v1", "Pod"⟩
        { ObjectMeta.mk "a" "ns" "u" "" [] [] [] with
            labels := [("a", "1")], annotations := [] } =
      graphNode "h" emptyGraph ⟨"", "v1", "Pod"⟩ (ObjectMeta.mk "a" "ns" "u" "" [] [] []) ∧
     lookupNode (graphNode "h" emptyGraph ⟨"", "v1", "Pod"⟩
        (ObjectMeta.mk "a" "ns" "u" "" [] [] [])).1
        (effCluster "h" (ObjectMeta.mk "a" "ns" "u" "" [] [] [])) "ns" "u" =
      some (nodeOf ⟨"", "v1", "Pod"⟩ (ObjectMeta.mk "a" "ns" "u" "" [] [] []))) :=
  ⟨by decide, rfl,
   c1_overwrite_no_enrichment "h" emptyGraph ⟨"", "v1", "Pod"⟩
     (ObjectMeta.mk "a" "ns" "u" "" [] [] []) [("a", "1")] [] (by decide) rfl⟩

/-- C3: the claim asserts distinct input lists yield different identifiers up
to hash-collision odds.  `ToUID` hashes the dash-join of its inputs, so the
distinct lists `["a", "b"]` and `["a-b"]` have equal joins and collide with
certainty, not with hash-collision odds. -/
theorem c3_counterexample :
    toUID ["a", "b"] = toUID ["a-b"] ∧ ["a", "b"] ≠ ["a-b"] :=
  ⟨congrArg toUIDofString (by decide :
      joinDash ["a", "b"] = joinDash ["a-b"]), by decide⟩

/-- C3 (amended): `ToUID` is a function of the dash-join of its input list —
equal joins (in particular equal lists) always give the same identifier, and
distinct lists whose joins agree always collide — and every output has the
fixed 8-4-4-4-12 lowercase-hex format. -/
theorem c3_deterministic_formatted :
    (∀ l1 l2 : List String, joinDash l1 = joinDash l2 → toUID l1 = toUID l2) ∧
    (∀ l : List String, uidFormat (toUID l)) := by
  constructor
  · intro l1 l2 h
    exact congrArg toUIDofString h
  · intro l
    have hlen := length_md5sumHex (joinDash l)
    have hhex := all_hex_md5sumHex (joinDash l)
    refine ⟨(md5sumHex (joinDash l)).take 8, ((md5sumHex (joinDash l)).drop 8).take 4,
      ((md5sumHex (joinDash l)).drop 12).take 4, ((md5sumHex (joinDash l)).drop 16).take 4,
      (md5sumHex (joinDash l)).drop 20, ?_, ?_, ?_, ?_, ?_, ?_, ?_⟩
    · show (toUIDofString (joinDash l)).data = _
      simp [toUIDofString]
    · simp [List.length_take, hlen]
    · simp [List.length_take, List.length_drop, hlen]
    · simp [List.length_take, List.length_drop, hlen]
    · simp [List.length_take, List.length_drop, hlen]
    · simp [List.length_drop, hlen]
    · rw [List.all_eq_true] at hhex ⊢
      intro c hc
      apply hhex
      rcases List.mem_append.mp hc with h1 | h5
      · rcases List.mem_append.mp h1 with h1 | h4
        · rcases List.mem_append.mp h1 with h1 | h3
          · rcases List.mem_append.mp h1 with h1 | h2
            · exact List.take_subset _ _ h1
            · exact List.drop_subset _ _ (List.take_subset _ _ h2)
          · exact List.drop_subset _ _ (List.take_subset _ _ h3)
        · exact List.drop_subset _ _ (List.take_subset _ _ h4)
      · exact List.drop_subset _ _ h5

theorem c3_deterministic_formatted_witness :
    joinDash ["a", "b"] = joinDash ["a-b"] ∧ toUID ["a", "b"] = toUID ["a-b"] ∧
    uidFormat (toUID ["x"]) :=
  ⟨by decide, c3_deterministic_formatted.1 ["a", "b"] ["a-b"] (by decide),
   c3_deterministic_formatted.2 ["x"]⟩

/-! ### List lemmas for the relationship store -/

theorem findIdxNone_all {α : Type} (p : α → Bool) :
    ∀ (l : List α) (s : Nat), List.findIdx? p l s = none → ∀ x ∈ l, p x = false := by
  intro l
  induction l with
  | nil => intro s h x hx; cases hx
  | cons y ys ih =>
    intro s h x hx
    rw [List.findIdx?_cons] at h
    by_cases hy : p y
    · simp [hy] at h
    · rcases List.mem_cons.mp hx with rfl | hx
      · exact Bool.eq_false_iff.mpr hy
      · exact ih (s + 1) (by simpa [hy] using h) x hx

theorem findIdxAppend {α : Type} (p : α → Bool) :
    ∀ (l : List α) (s : Nat) (x : α), List.findIdx? p l s = none → p x = true →
      List.findIdx? p (l ++ [x]) s = some (s + l.length) := by
  intro l
  induction l with
  | nil => intro s x h hx; simp [List.findIdx?_cons, hx]
  | cons y ys ih =>
    intro s x h hx
    rw [List.findIdx?_cons] at h
    by_cases hy : p y
    · simp [hy] at h
    · rw [List.cons_append, List.findIdx?_cons, if_neg hy,
        ih (s + 1) x (by simpa [hy] using h) hx]
      congr 1
      simp
      omega

theorem findIdxSome_get {α : Type} (p : α → Bool) :
    ∀ (l : List α) (s i : Nat), List.findIdx? p l s = some i →
      s ≤ i ∧ ∃ x, l.get? (i - s) = some x ∧ p x = true := by
  intro l
  induction l with
  | nil => intro s i h; simp [List.findIdx?_nil] at h
  | cons y ys ih =>
    intro s i h
    rw [List.findIdx?_cons] at h
    by_cases hy : p y
    · rw [if_pos hy] at h
      cases h
      exact ⟨Nat.le_refl _, y, by simp, hy⟩
    · rw [if_neg hy] at h
      rcases ih (s + 1) i h with ⟨hle, x, hg, hp⟩
      refine ⟨by omega, x, ?_, hp⟩
      have heq : i - s = (i - (s + 1)) + 1 := by omega
      rw [heq]
      simpa using hg

theorem getq_append_last {α : Type} (l : List α) (x : α) :
    (l ++ [x]).get? l.length = some x := by
  induction l with
  | nil => rfl
  | cons y ys ih => simpa using ih

theorem get?_updateAt_self {α : Type} (f : α → α) :
    ∀ (l : List α) (i : Nat) (x : α), l.get? i = some x →
      (updateAt l i f).get? i = some (f x) := by
  intro l
  induction l with
  | nil => intro i x h; cases i <;> simp [List.get?] at h
  | cons y ys ih =>
    intro i x h
    cases i with
    | zero =>
      simp only [List.get?] at h
      cases h
      simp [updateAt, List.get?]
    | succ n =>
      simp only [List.get?] at h
      simpa [updateAt, List.get?] using ih n x h

theorem mem_setA {α : Type} (k : String) (v : α) (p : String × α) :
    ∀ (l : List (String × α)), p ∈ setA l k v → p = (k, v) ∨ p ∈ l := by
  intro l
  induction l with
  | nil => intro h; simpa [setA] using h
  | cons q rest ih =>
    intro h
    by_cases hq : q.1 = k
    · rw [setA, if_pos hq] at h
      rcases List.mem_cons.mp h with rfl | h
      · exact Or.inl rfl
      · exact Or.inr (List.mem_cons_of_mem _ h)
    · rw [setA, if_neg hq] at h
      rcases List.mem_cons.mp h with rfl | h
      · exact Or.inr (List.mem_cons_self _ _)
      · rcases ih h with h1 | h1
        · exact Or.inl h1
        · exact Or.inr (List.mem_cons_of_mem _ h1)

theorem getA_mem {α : Type} (k : String) (v : α) :
    ∀ (l : List (String × α)), getA l k = some v → (k, v) ∈ l := by
  intro l
  induction l with
  | nil => intro h; simp [getA] at h
  | cons q rest ih =>
    intro h
    by_cases hq : q.1 = k
    · rw [getA, if_pos hq] at h
      cases h
      subst hq
      exact Prod.mk.eta ▸ List.mem_cons_self q rest
    · rw [getA, if_neg hq] at h
      exact List.mem_cons_of_mem _ (ih h)

theorem keys_setA {α : Type} (k : String) (v : α) :
    ∀ (l : List (String × α)),
      (setA l k v).map Prod.fst = l.map Prod.fst ∨
      (setA l k v).map Prod.fst = l.map Prod.fst ++ [k] := by
  intro l
  induction l with
  | nil => right; simp [setA]
  | cons q rest ih =>
    by_cases hq : q.1 = k
    · left
      simp [setA, hq]
    · rcases ih with h | h
      · left
        simp [setA, hq, h]
      · right
        simp [setA, hq, h]

theorem nodupKeys_setA {α : Type} (k : String) (v : α) (l : List (String × α))
    (h : (l.map Prod.fst).Nodup) (hk : getA l k = none → True) :
    ((setA l k v).map Prod.fst).Nodup := by
  induction l with
  | nil => simp [setA]
  | cons q rest ih =>
    rcases List.nodup_cons.mp h with ⟨hq, hrest⟩
    by_cases hqk : q.1 = k
    · rw [setA, if_pos hqk]
      simp only [List.map_cons]
      exact List.nodup_cons.mpr ⟨by simpa [hqk] using hq, hrest⟩
    · rw [setA, if_neg hqk]
      simp only [List.map_cons]
      refine List.nodup_cons.mpr ⟨?_, ih hrest (fun _ => trivial)⟩
      rcases keys_setA k v rest with hs | hs
      · rw [hs]; exact hq
      · rw [hs]
        simp only [List.mem_append, List.mem_singleton]
        rintro (h1 | rfl)
        · exact hq h1
        · exact hqk rfl

/-! ### The relationship store: dedup, well-formedness, attributes -/

theorem bucket_prop_of_relWF (g : Graph) (h : relWF g) (u : String) :
    (∀ r ∈ (getA g.relationships u).getD [], r.fromRef.uid = u) ∧
    ((getA g.relationships u).getD []).Pairwise
      (fun r1 r2 => r1.toRef.uid ≠ r2.toRef.uid) := by
  cases hg : getA g.relationships u with
  | none => simp
  | some bk =>
    have hmem := getA_mem u bk g.relationships hg
    simpa using h.2 (u, bk) hmem

/-- Case analysis of one `Graph.Relationship` call. -/
theorem graphRelationship_spec (g : Graph) (a : Node) (lab : String) (b : Node) :
    (∃ i, List.findIdx? (fun r => r.toRef.uid = b.uid)
        ((getA g.relationships a.uid).getD []) 0 = some i ∧
      graphRelationship g a lab b = (g, (a.uid, i))) ∨
    (List.findIdx? (fun r => r.toRef.uid = b.uid)
        ((getA g.relationships a.uid).getD []) 0 = none ∧
      graphRelationship g a lab b =
        ({ g with relationships := (setA g.relationships a.uid
            (((getA g.relationships a.uid).getD []) ++
              [⟨⟨a.kind, a.uid⟩, lab, ⟨b.kind, b.uid⟩, []⟩])) },
         (a.uid, ((getA g.relationships a.uid).getD []).length))) := by
  simp only [graphRelationship]
  cases hf : List.findIdx? (fun r => r.toRef.uid = b.uid)
      ((getA g.relationships a.uid).getD []) 0 with
  | some i => exact Or.inl ⟨i, rfl, rfl⟩
  | none => exact Or.inr ⟨rfl, rfl⟩

theorem relWF_graphRelationship (g : Graph) (a : Node) (lab : String) (b : Node)
    (h : relWF g) : relWF (graphRelationship g a lab b).1 := by
  rcases graphRelationship_spec g a lab b with ⟨i, hf, he⟩ | ⟨hf, he⟩
  · rw [he]; exact h
  · rw [he]
    constructor
    · exact nodupKeys_setA _ _ _ h.1 (fun _ => trivial)
    · intro bk hbk
      rcases mem_setA _ _ _ _ hbk with rfl | hbk2
      · constructor
        · intro r hr
          rcases List.mem_append.mp hr with hr | hr
          · exact (bucket_prop_of_relWF g h a.uid).1 r hr
          · rw [List.mem_singleton.mp hr]
        · apply List.pairwise_append.mpr
          refine ⟨(bucket_prop_of_relWF g h a.uid).2, List.pairwise_singleton _ _, ?_⟩
          intro x hx y hy
          rw [List.mem_singleton.mp hy]
          have hfa := findIdxNone_all _ _ _ hf x hx
          simpa using hfa
      · exact h.2 bk hbk2

/-- The second `Graph.Relationship` call with the same endpoints returns the
stored graph unchanged and the same handle. -/
theorem graphRelationship_idem (g : Graph) (a : Node) (l1 l2 : String) (b : Node) :
    graphRelationship (graphRelationship g a l1 b).1 a l2 b =
      ((graphRelationship g a l1 b).1, (graphRelationship g a l1 b).2) := by
  rcases graphRelationship_spec g a l1 b with ⟨i, hf, he⟩ | ⟨hf, he⟩
  · rw [he]
    rcases graphRelationship_spec g a l2 b with ⟨i2, hf2, he2⟩ | ⟨hf2, he2⟩
    · rw [he2]
      rw [hf] at hf2
      cases hf2
      rfl
    · rw [hf] at hf2
      cases hf2
  · rw [he]
    rcases graphRelationship_spec
        ({ g with relationships := (setA g.relationships a.uid
            (((getA g.relationships a.uid).getD []) ++
              [⟨⟨a.kind, a.uid⟩, l1, ⟨b.kind, b.uid⟩, []⟩])) } : Graph) a l2 b with
      ⟨i2, hf2, he2⟩ | ⟨hf2, he2⟩
    · rw [he2]
      have hbucket : getA (setA g.relationships a.uid
          (((getA g.relationships a.uid).getD []) ++
            [⟨⟨a.kind, a.uid⟩, l1, ⟨b.kind, b.uid⟩, []⟩])) a.uid =
          some (((getA g.relationships a.uid).getD []) ++
            [⟨⟨a.kind, a.uid⟩, l1, ⟨b.kind, b.uid⟩, []⟩]) := getA_setA_self _ _ _
      rw [hbucket] at hf2
      simp only [Option.getD_some] at hf2
      rw [findIdxAppend _ _ _ _ hf (by simp)] at hf2
      cases hf2
      simp
    · exfalso
      have hbucket : getA (setA g.relationships a.uid
          (((getA g.relationships a.uid).getD []) ++
            [⟨⟨a.kind, a.uid⟩, l1, ⟨b.kind, b.uid⟩, []⟩])) a.uid =
          some (((getA g.relationships a.uid).getD []) ++
            [⟨⟨a.kind, a.uid⟩, l1, ⟨b.kind, b.uid⟩, []⟩]) := getA_setA_self _ _ _
      rw [hbucket] at hf2
      simp only [Option.getD_some] at hf2
      rw [findIdxAppend _ _ _ _ hf (by simp)] at hf2
      cases hf2

/-- After a `Graph.Relationship` call the handle points at a stored edge with
the requested endpoints. -/
theorem getRel_after_create (g : Graph) (a : Node) (lab : String) (b : Node)
    (h : relWF g) :
    ∃ r0, getRel (graphRelationship g a lab b).1 (graphRelationship g a lab b).2 =
        some r0 ∧ r0.fromRef.uid = a.uid ∧ r0.toRef.uid = b.uid := by
  rcases graphRelationship_spec g a lab b with ⟨i, hf, he⟩ | ⟨hf, he⟩
  · rw [he]
    rcases findIdxSome_get _ _ _ _ hf with ⟨_, x, hg, hp⟩
    simp only [Nat.sub_zero] at hg
    refine ⟨x, ?_, ?_, by simpa using hp⟩
    · simpa [getRel] using hg
    · have hx : x ∈ (getA g.relationships a.uid).getD [] := by
        have hlt : i < ((getA g.relationships a.uid).getD []).length :=
          List.get?_eq_some.mp hg |>.1
        exact List.get?_mem hg
      exact (bucket_prop_of_relWF g h a.uid).1 x hx
  · rw [he]
    refine ⟨⟨⟨a.kind, a.uid⟩, lab, ⟨b.kind, b.uid⟩, []⟩, ?_, rfl, rfl⟩
    simp only [getRel, getA_setA_self, Option.getD_some]
    exact getq_append_last _ _

/-- `Relationship.Attribute` through a valid handle updates exactly that
stored edge. -/
theorem getRel_after_attr (g : Graph) (h : RelHandle) (k v : String) (r : Relationship)
    (hr : getRel g h = some r) :
    getRel (relAttribute g h k v) h = some { r with attr := setA r.attr k v } := by
  simp only [getRel, relAttribute, getA_setA_self, Option.getD_some]
  simp only [getRel] at hr
  exact get?_updateAt_self _ _ _ _ hr

theorem filter_toRef_le_one (u1 u2 : String) (l : List Relationship)
    (hp : l.Pairwise (fun r1 r2 => r1.toRef.uid ≠ r2.toRef.uid)) :
    (l.filter (fun r => r.fromRef.uid == u1 && r.toRef.uid == u2)).length ≤ 1 := by
  induction l with
  | nil => simp
  | cons r rest ih =>
    rcases List.pairwise_cons.mp hp with ⟨hr, hrest⟩
    rw [List.filter_cons]
    by_cases hm : (r.fromRef.uid == u1 && r.toRef.uid == u2) = true
    · rw [if_pos hm]
      have hnil : rest.filter (fun r => r.fromRef.uid == u1 && r.toRef.uid == u2) = [] := by
        rw [List.filter_eq_nil_iff]
        intro x hx hcx
        have h2 := (Bool.and_eq_true _ _ |>.mp hcx).2
        have h1 := (Bool.and_eq_true _ _ |>.mp hm).2
        refine hr x hx ?_
        have e2 : x.toRef.uid = u2 := by simpa using h2
        have e1 : r.toRef.uid = u2 := by simpa using h1
        rw [e2, e1]
      simp [hnil]
    · rw [if_neg hm]
      exact ih hrest

theorem countSum_le_one (u1 u2 : String) :
    ∀ (l : List (String × List Relationship)),
      (l.map Prod.fst).Nodup →
      (∀ b ∈ l, (∀ r ∈ b.2, r.fromRef.uid = b.1) ∧
        b.2.Pairwise (fun r1 r2 => r1.toRef.uid ≠ r2.toRef.uid)) →
      (l.map (fun b => (b.2.filter
        (fun r => r.fromRef.uid == u1 && r.toRef.uid == u2)).length)).sum ≤ 1 := by
  intro l
  induction l with
  | nil => simp
  | cons bk rest ih =>
    intro hnd hb
    have hnd' : (bk.1 :: rest.map Prod.fst).Nodup := by simpa using hnd
    rcases List.nodup_cons.mp hnd' with ⟨hk, hnd2⟩
    have hbk := hb bk (List.mem_cons_self _ _)
    simp only [List.map_cons, List.sum_cons]
    by_cases hu : bk.1 = u1
    · have hterm : (bk.2.filter
          (fun r => r.fromRef.uid == u1 && r.toRef.uid == u2)).length ≤ 1 :=
        filter_toRef_le_one u1 u2 bk.2 hbk.2
      have hrest : (rest.map (fun b => (b.2.filter
          (fun r => r.fromRef.uid == u1 && r.toRef.uid == u2)).length)).sum = 0 := by
        apply List.sum_eq_zero
        intro x hx
        rcases List.mem_map.mp hx with ⟨b2, hb2, rfl⟩
        have hfz : b2.2.filter (fun r => r.fromRef.uid == u1 && r.toRef.uid == u2) = [] := by
          rw [List.filter_eq_nil_iff]
          intro r hrm hcr
          have h1 := (Bool.and_eq_true _ _ |>.mp hcr).1
          have e1 : r.fromRef.uid = u1 := by simpa using h1
          have e2 := (hb b2 (List.mem_cons_of_mem _ hb2)).1 r hrm
          apply hk
          have hbu : b2.1 = u1 := by rw [← e2, e1]
          rw [hu, ← hbu]
          exact List.mem_map_of_mem Prod.fst hb2
        simp [hfz]
      rw [hrest]
      omega
    · have hterm : bk.2.filter (fun r => r.fromRef.uid == u1 && r.toRef.uid == u2) = [] := by
        rw [List.filter_eq_nil_iff]
        intro r hrm hcr
        have h1 := (Bool.and_eq_true _ _ |>.mp hcr).1
        have e1 : r.fromRef.uid = u1 := by simpa using h1
        exact hu (by rw [← hbk.1 r hrm, e1])
      rw [hterm]
      simp only [List.length_nil, Nat.zero_add]
      exact ih hnd2 (fun b hb2 => hb b (List.mem_cons_of_mem _ hb2))

theorem countRel_le_one (g : Graph) (h : relWF g) (u1 u2 : String) :
    countRel g u1 u2 ≤ 1 :=
  countSum_le_one u1 u2 g.relationships h.1 h.2

/-- C2: for every ordered pair of endpoints, `Graph.Relationship` is
idempotent — the second call (with any label) leaves the store unchanged and
returns the same handle, at most one relationship object exists per ordered
(fromUID, toUID) pair, and an attribute set through the returned handle is
observable on the single stored edge. -/
theorem c2_relationship_idempotent (g : Graph) (a b : Node) (l1 l2 k v : String)
    (hwf : relWF g) :
    graphRelationship (graphRelationship g a l1 b).1 a l2 b =
      ((graphRelationship g a l1 b).1, (graphRelationship g a l1 b).2) ∧
    relWF (graphRelationship g a l1 b).1 ∧
    (∀ u1 u2, countRel (graphRelationship g a l1 b).1 u1 u2 ≤ 1) ∧
    (∃ r0, getRel (graphRelationship g a l1 b).1 (graphRelationship g a l1 b).2 =
        some r0 ∧ r0.fromRef.uid = a.uid ∧ r0.toRef.uid = b.uid ∧
      getRel (relAttribute (graphRelationship g a l1 b).1
          (graphRelationship g a l1 b).2 k v) (graphRelationship g a l1 b).2 =
        some { r0 with attr := setA r0.attr k v } ∧
      getA (setA r0.attr k v) k = some v) := by
  refine ⟨graphRelationship_idem g a l1 l2 b, relWF_graphRelationship g a l1 b hwf,
    fun u1 u2 => countRel_le_one _ (relWF_graphRelationship g a l1 b hwf) u1 u2, ?_⟩
  rcases getRel_after_create g a l1 b hwf with ⟨r0, hget, hfrom, hto⟩
  exact ⟨r0, hget, hfrom, hto, getRel_after_attr _ _ k v r0 hget, getA_setA_self _ _ _⟩

theorem relWF_emptyGraph : relWF emptyGraph :=
  ⟨by simp [emptyGraph], by intro b hb; simp [emptyGraph] at hb⟩

theorem c2_relationship_idempotent_witness :
    relWF emptyGraph ∧
    (graphRelationship (graphRelationship emptyGraph
        (Node.mk "v1" "Pod" "a" "ns" "u1") "L1" (Node.mk "v1" "Pod" "b" "ns" "u2")).1
        (Node.mk "v1" "Pod" "a" "ns" "u1") "L2" (Node.mk "v1" "Pod" "b" "ns" "u2") =
      ((graphRelationship emptyGraph (Node.mk "v1" "Pod" "a" "ns" "u1") "L1"
          (Node.mk "v1" "Pod" "b" "ns" "u2")).1,
       (graphRelationship emptyGraph (Node.mk "v1" "Pod" "a" "ns" "u1") "L1"
          (Node.mk "v1" "Pod" "b" "ns" "u2")).2) ∧
     relWF (graphRelationship emptyGraph (Node.mk "v1" "Pod" "a" "ns" "u1") "L1"
        (Node.mk "v1" "Pod" "b" "ns" "u2")).1 ∧
     (∀ u1 u2, countRel (graphRelationship emptyGraph (Node.mk "v1" "Pod" "a" "ns" "u1")
        "L1" (Node.mk "v1" "Pod" "b" "ns" "u2")).1 u1 u2 ≤ 1) ∧
     (∃ r0, getRel (graphRelationship emptyGraph (Node.mk "v1" "Pod" "a" "ns" "u1") "L1"
          (Node.mk "v1" "Pod" "b" "ns" "u2")).1
          (graphRelationship emptyGraph (Node.mk "v1" "Pod" "a" "ns" "u1") "L1"
            (Node.mk "v1" "Pod" "b" "ns" "u2")).2 = some r0 ∧
        r0.fromRef.uid = (Node.mk "v1" "Pod" "a" "ns" "u1").uid ∧
        r0.toRef.uid = (Node.mk "v1" "Pod" "b" "ns" "u2").uid ∧
        getRel (relAttribute (graphRelationship emptyGraph
            (Node.mk "v1" "Pod" "a" "ns" "u1") "L1" (Node.mk "v1" "Pod" "b" "ns" "u2")).1
            (graphRelationship emptyGraph (Node.mk "v1" "Pod" "a" "ns" "u1") "L1"
              (Node.mk "v1" "Pod" "b" "ns" "u2")).2 "color" "#FFF")
            (graphRelationship emptyGraph (Node.mk "v1" "Pod" "a" "ns" "u1") "L1"
              (Node.mk "v1" "Pod" "b" "ns" "u2")).2 =
          some { r0 with attr := setA r0.attr "color" "#FFF" } ∧
        getA (setA r0.attr "color" "#FFF") "color" = some "#FFF")) :=
  ⟨relWF_emptyGraph,
   c2_relationship_idempotent emptyGraph (Node.mk "v1" "Pod" "a" "ns" "u1")
     (Node.mk "v1" "Pod" "b" "ns" "u2") "L1" "L2" "color" "#FFF" relWF_emptyGraph⟩

/-! ### Preservation machinery: predicates closed under the store primitives -/

theorem mem_updateAt {α : Type} (f : α → α) :
    ∀ (l : List α) (i : Nat) (x : α), x ∈ updateAt l i f → x ∈ l ∨ ∃ y ∈ l, x = f y := by
  intro l
  induction l with
  | nil => intro i x h; simp [updateAt] at h
  | cons y ys ih =>
    intro i x h
    cases i with
    | zero =>
      rcases List.mem_cons.mp h with rfl | h
      · exact Or.inr ⟨y, List.mem_cons_self _ _, rfl⟩
      · exact Or.inl (List.mem_cons_of_mem _ h)
    | succ n =>
      rcases List.mem_cons.mp h with rfl | h
      · exact Or.inl (List.mem_cons_self _ _)
      · rcases ih n x h with h1 | ⟨z, hz, rfl⟩
        · exact Or.inl (List.mem_cons_of_mem _ h1)
        · exact Or.inr ⟨z, List.mem_cons_of_mem _ hz, rfl⟩

theorem map_updateAt {α β : Type} (f : α → α) (m : α → β) (hm : ∀ x, m (f x) = m x) :
    ∀ (l : List α) (i : Nat), (updateAt l i f).map m = l.map m := by
  intro l
  induction l with
  | nil => intro i; rfl
  | cons y ys ih =>
    intro i
    cases i with
    | zero => simp [updateAt, hm]
    | succ n => simp [updateAt, ih]

theorem relWF_relAttribute (g : Graph) (h : RelHandle) (k v : String)
    (hwf : relWF g) : relWF (relAttribute g h k v) := by
  unfold relAttribute
  constructor
  · exact nodupKeys_setA _ _ _ hwf.1 (fun _ => trivial)
  · intro bk hbk
    rcases mem_setA _ _ _ _ hbk with rfl | hbk2
    · have hprops := bucket_prop_of_relWF g hwf h.1
      constructor
      · intro r hr
        rcases mem_updateAt _ _ _ _ hr with h1 | ⟨y, hy, rfl⟩
        · exact hprops.1 r h1
        · exact hprops.1 y hy
      · have hpm : (((getA g.relationships h.1).getD []).map
            (fun r => r.toRef.uid)).Pairwise (· ≠ ·) :=
          List.pairwise_map.mpr hprops.2
        have hupd := map_updateAt
          (fun r => { r with attr := setA r.attr k v })
          (fun r : Relationship => r.toRef.uid) (fun x => rfl)
          ((getA g.relationships h.1).getD []) h.2
        exact List.pairwise_map.mp (hupd ▸ hpm)
    · exact hwf.2 bk hbk2
theorem any_setA_of_any {α : Type} (P : String × α → Bool) (k : String) (v : α) :
    ∀ (l : List (String × α)),
      (∀ w, getA l k = some w → P (k, w) = true → P (k, v) = true) →
      l.any P = true → (setA l k v).any P = true := by
  intro l
  induction l with
  | nil => intro hP h; simp at h
  | cons q rest ih =>
    intro hP h
    by_cases hq : q.1 = k
    · rw [setA, if_pos hq]
      rcases List.any_eq_true.mp h with ⟨x, hx, hPx⟩
      rcases List.mem_cons.mp hx with rfl | hx2
      · apply List.any_eq_true.mpr
        refine ⟨(k, v), List.mem_cons_self _ _, ?_⟩
        apply hP x.2
        · rw [getA, if_pos hq]
        · calc P (k, x.2) = P (x.1, x.2) := by rw [hq]
            _ = P x := by rw [Prod.mk.eta]
            _ = true := hPx
      · exact List.any_eq_true.mpr ⟨x, List.mem_cons_of_mem _ hx2, hPx⟩
    · rw [setA, if_neg hq]
      rcases List.any_eq_true.mp h with ⟨x, hx, hPx⟩
      rcases List.mem_cons.mp hx with rfl | hx2
      · exact List.any_eq_true.mpr ⟨x, List.mem_cons_self _ _, hPx⟩
      · have hrest := ih (fun w hw hPw => hP w (by rwa [getA, if_neg hq]) hPw)
          (List.any_eq_true.mpr ⟨x, hx2, hPx⟩)
        rcases List.any_eq_true.mp hrest with ⟨y, hy, hPy⟩
        exact List.any_eq_true.mpr ⟨y, List.mem_cons_of_mem _ hy, hPy⟩

theorem any_setA_self {α : Type} (P : String × α → Bool) (k : String) (v : α)
    (hv : P (k, v) = true) : ∀ (l : List (String × α)), (setA l k v).any P = true := by
  intro l
  induction l with
  | nil => simpa [setA] using hv
  | cons q rest ih =>
    by_cases hq : q.1 = k
    · rw [setA, if_pos hq]
      exact List.any_eq_true.mpr ⟨(k, v), List.mem_cons_self _ _, hv⟩
    · rw [setA, if_neg hq]
      rcases List.any_eq_true.mp ih with ⟨y, hy, hPy⟩
      exact List.any_eq_true.mpr ⟨y, List.mem_cons_of_mem _ hy, hPy⟩

theorem any_updateAt_of_any {α : Type} (P : α → Bool) (f : α → α)
    (hf : ∀ x, P (f x) = P x) :
    ∀ (l : List α) (i : Nat), l.any P = true → (updateAt l i f).any P = true := by
  intro l
  induction l with
  | nil => intro i h; simp at h
  | cons y ys ih =>
    intro i h
    cases i with
    | zero =>
      simp only [List.any_cons, Bool.or_eq_true] at h
      rcases h with h | h
      · simp [updateAt, List.any_cons, hf, h]
      · simp [updateAt, List.any_cons, h]
    | succ n =>
      simp only [List.any_cons, Bool.or_eq_true] at h
      rcases h with h | h
      · simp [updateAt, List.any_cons, h]
      · simp [updateAt, List.any_cons, ih n h]

theorem containsUID_insertNode_mono (g : Graph) (c ns u2 : String) (n : Node) (u : String)
    (h : containsUID g u = true) : containsUID (insertNode g c ns u2 n) u = true := by
  unfold containsUID insertNode at *
  apply any_setA_of_any _ _ _ _ ?_ h
  intro w hw hPw
  simp only at hPw ⊢
  rw [hw, Option.getD_some]
  apply any_setA_of_any _ _ _ _ ?_ hPw
  intro w2 hw2 hPw2
  simp only at hPw2 ⊢
  rw [hw2, Option.getD_some]
  apply any_setA_of_any _ _ _ _ ?_ hPw2
  intro w3 hw3 hPw3
  exact hPw3

theorem containsUID_insertNode_self (g : Graph) (c ns u : String) (n : Node) :
    containsUID (insertNode g c ns u n) u = true := by
  unfold containsUID insertNode
  apply any_setA_self
  simp only
  apply any_setA_self
  simp only
  apply any_setA_self
  simp

theorem storeNodesProp_insertNode (P : Node → Prop) (g : Graph) (c ns u : String) (n : Node)
    (hn : P n) (h : storeNodesProp P g) : storeNodesProp P (insertNode g c ns u n) := by
  intro ce hce nsb hnsb p hp
  unfold insertNode at hce
  rcases mem_setA _ _ _ _ hce with rfl | hce2
  · rcases mem_setA _ _ _ _ hnsb with rfl | hnsb2
    · rcases mem_setA _ _ _ _ hp with rfl | hp2
      · exact hn
      · cases hg : getA g.nodes c with
        | none => rw [hg] at hp2; simp [getA] at hp2
        | some nss =>
          rw [hg] at hp2
          simp only [Option.getD_some] at hp2
          cases hg2 : getA nss ns with
          | none => rw [hg2] at hp2; simp [getA] at hp2
          | some bucket =>
            rw [hg2] at hp2
            simp only [Option.getD_some] at hp2
            exact h (c, nss) (getA_mem _ _ _ hg) (ns, bucket) (getA_mem _ _ _ hg2) p hp2
    · cases hg : getA g.nodes c with
      | none => rw [hg] at hnsb2; simp [getA] at hnsb2
      | some nss =>
        rw [hg] at hnsb2
        simp only [Option.getD_some] at hnsb2
        exact h (c, nss) (getA_mem _ _ _ hg) nsb hnsb2 p hp
  · exact h ce hce2 nsb hnsb p hp

theorem relExistsLabeled_graphRelationship_mono (g : Graph) (a : Node) (lab : String)
    (b : Node) (u1 l2 u2 : String) (h : relExistsLabeled g u1 l2 u2 = true) :
    relExistsLabeled (graphRelationship g a lab b).1 u1 l2 u2 = true := by
  rcases graphRelationship_spec g a lab b with ⟨i, hf, he⟩ | ⟨hf, he⟩
  · rw [he]; exact h
  · rw [he]
    unfold relExistsLabeled at *
    apply any_setA_of_any _ _ _ _ ?_ h
    intro w hw hPw
    simp only at hPw ⊢
    rw [hw, Option.getD_some]
    rcases List.any_eq_true.mp hPw with ⟨r0, hr0, hPr0⟩
    exact List.any_eq_true.mpr ⟨r0, List.mem_append_left _ hr0, hPr0⟩

theorem relExistsLabeled_relAttribute_mono (g : Graph) (hd : RelHandle) (k v : String)
    (u1 l2 u2 : String) (h : relExistsLabeled g u1 l2 u2 = true) :
    relExistsLabeled (relAttribute g hd k v) u1 l2 u2 = true := by
  unfold relAttribute relExistsLabeled at *
  apply any_setA_of_any _ _ _ _ ?_ h
  intro w hw hPw
  simp only at hPw ⊢
  rw [hw, Option.getD_some]
  exact any_updateAt_of_any _ (fun r => { r with attr := setA r.attr k v })
    (fun x => rfl) _ _ hPw

/-- `relWF` is closed under the three store primitives. -/
theorem stepClosed_relWF : StepClosed relWF :=
  ⟨fun g c ns u n _ h => h, fun g a l b h => relWF_graphRelationship g a l b h,
   fun g hd k v hw => relWF_relAttribute g hd k v hw⟩

/-- UID presence is closed under the three store primitives. -/
theorem stepClosed_containsUID (u : String) :
    StepClosed (fun g => containsUID g u = true) :=
  ⟨fun g c ns u2 n _ h => containsUID_insertNode_mono g c ns u2 n u h,
   fun g a l b h => by
     rcases graphRelationship_spec g a l b with ⟨i, hf, he⟩ | ⟨hf, he⟩ <;> rw [he] <;> exact h,
   fun g hd k v h => h⟩

/-- The no-core-Namespace-node store invariant is closed under the three
store primitives. -/
theorem stepClosed_noNamespace : StepClosed (storeNodesProp nodeNotCoreNamespace) :=
  ⟨fun g c ns u n hn h => storeNodesProp_insertNode _ g c ns u n hn h,
   fun g a l b h => by
     rcases graphRelationship_spec g a l b with ⟨i, hf, he⟩ | ⟨hf, he⟩ <;> rw [he] <;> exact h,
   fun g hd k v h => h⟩

/-- Presence of a labeled edge is closed under the three store primitives. -/
theorem stepClosed_relExistsLabeled (u1 lab u2 : String) :
    StepClosed (fun g => relExistsLabeled g u1 lab u2 = true) :=
  ⟨fun g c ns u n _ h => h,
   fun g a l b h => relExistsLabeled_graphRelationship_mono g a l b u1 lab u2 h,
   fun g hd k v h => relExistsLabeled_relAttribute_mono g hd k v u1 lab u2 h⟩

theorem foldl_preserve {α : Type} {Q : Graph → Prop} {step : Graph → α → Graph}
    (h : ∀ g x, Q g → Q (step g x)) :
    ∀ (l : List α) (g : Graph), Q g → Q (l.foldl step g) := by
  intro l
  induction l with
  | nil => intro g hg; exact hg
  | cons x xs ih => intro g hg; exact ih _ (h g x hg)

/-! ### Producer closure: every producer preserves step-closed predicates -/

theorem append_slash_ne (g v s : String) (hs : ¬ '/' ∈ s.data) : (g ++ "/" ++ v) ≠ s := by
  intro he
  have hd := congrArg String.data he
  simp only [String.data_append] at hd
  have hm : ('/' : Char) ∈ g.data ++ "/".data ++ v.data := by
    simp [String.data]
  rw [hd] at hm
  exact hs hm

/-- A node built from a gvk that passes the Namespace guard is never a
core-group Namespace record. -/
theorem nodeOf_notCoreNamespace (gvk : GroupVersionKind) (obj : ObjectMeta)
    (hg : gvk.groupKindString ≠ "Namespace") : nodeNotCoreNamespace (nodeOf gvk obj) := by
  rintro ⟨hk, hav⟩
  have hkind : gvk.kind = "Namespace" := hk
  by_cases hgr : gvk.group = ""
  · refine hg ?_
    unfold GroupVersionKind.groupKindString
    rw [if_pos hgr]
    exact hkind
  · have hav2 : (nodeOf gvk obj).apiVersion = gvk.group ++ "/" ++ gvk.version := by
      unfold nodeOf GroupVersionKind.toAPIVersionAndKind
      simp [hgr]
    rcases hav with hav | hav
    · exact append_slash_ne gvk.group gvk.version "" (by decide) (by rw [← hav2, hav])
    · exact append_slash_ne gvk.group gvk.version "v1" (by decide) (by rw [← hav2, hav])

theorem graphNodeOwner_closed {Q : Graph → Prop} (hq : StepClosed Q) (host : String)
    (g : Graph) (gvk : GroupVersionKind) (obj : ObjectMeta) (h : Q g) :
    Q (graphNodeOwner host g gvk obj).1 := by
  unfold graphNodeOwner
  split
  · exact h
  · next hguard => exact hq.insOK _ _ _ _ _ (nodeOf_notCoreNamespace gvk obj hguard) h

theorem graphNode_closed {Q : Graph → Prop} (hq : StepClosed Q) (host : String)
    (g : Graph) (gvk : GroupVersionKind) (obj : ObjectMeta) (h : Q g) :
    Q (graphNode host g gvk obj).1 := by
  unfold graphNode
  split
  · exact h
  · next hguard =>
    apply foldl_preserve ?_ obj.ownerReferences _
      (hq.insOK _ _ _ _ _ (nodeOf_notCoreNamespace gvk obj hguard) h)
    intro g2 oref hg2
    exact hq.relOK _ _ _ _ (graphNodeOwner_closed hq host g2 _ _ hg2)

theorem coreNamespace_closed {Q : Graph → Prop} (hq : StepClosed Q) (host : String)
    (g : Graph) (obj : NamespaceData) (h : Q g) : Q (coreNamespace host g obj).1 :=
  graphNode_closed hq host g _ _ h

theorem coreContainer_closed {Q : Graph → Prop} (hq : StepClosed Q) (host : String)
    (g : Graph) (pod : PodData) (c : ContainerData) (h : Q g) :
    Q (coreContainer host g pod c).1 :=
  graphNode_closed hq host g _ _ h

theorem corePod_closed {Q : Graph → Prop} (hq : StepClosed Q) (host : String)
    (g : Graph) (pod : PodData) (h : Q g) : Q (corePod host g pod).1 := by
  unfold corePod
  apply foldl_preserve ?_ pod.containers _ (graphNode_closed hq host g _ _ h)
  intro g2 c hg2
  exact hq.relOK _ _ _ _ (coreContainer_closed hq host g2 pod c hg2)

theorem coreObjectReference_closed {Q : Graph → Prop} (hq : StepClosed Q) (host : String)
    (g : Graph) (ref : TargetRefData) (h : Q g) : Q (coreObjectReference host g ref).1 :=
  graphNode_closed hq host g _ _ h

theorem coreEndpoints_closed {Q : Graph → Prop} (hq : StepClosed Q) (host : String)
    (g : Graph) (obj : EndpointsData) (h : Q g) : Q (coreEndpoints host g obj).1 := by
  unfold coreEndpoints
  apply foldl_preserve ?_ obj.subsets _ (graphNode_closed hq host g _ _ h)
  intro g2 subset hg2
  apply foldl_preserve ?_ subset.addresses _ hg2
  intro g3 addr hg3
  split
  · exact hg3
  · exact hq.relOK _ _ _ _ (coreObjectReference_closed hq host g3 _ hg3)

theorem coreServiceClusterIP_closed {Q : Graph → Prop} (hq : StepClosed Q) (env : Env)
    (g : Graph) (obj : ServiceData) (h : Q g) : Q (coreServiceClusterIP env g obj).1 := by
  unfold coreServiceClusterIP
  split
  · exact graphNode_closed hq env.host g _ _ h
  · next ep heq =>
    dsimp only
    split
    · exact coreEndpoints_closed hq env.host _ ep (graphNode_closed hq env.host g _ _ h)
    · exact hq.relOK _ _ _ _
        (coreEndpoints_closed hq env.host _ ep (graphNode_closed hq env.host g _ _ h))

theorem coreServiceLoadBalancer_closed {Q : Graph → Prop} (hq : StepClosed Q) (env : Env)
    (g : Graph) (obj : ServiceData) (h : Q g) : Q (coreServiceLoadBalancer env g obj).1 := by
  unfold coreServiceLoadBalancer
  split
  · exact graphNode_closed hq env.host g _ _ h
  · next ep heq =>
    dsimp only
    split
    · exact coreEndpoints_closed hq env.host _ ep (graphNode_closed hq env.host g _ _ h)
    · exact hq.relOK _ _ _ _
        (coreEndpoints_closed hq env.host _ ep (graphNode_closed hq env.host g _ _ h))

theorem coreServiceExternalName_closed {Q : Graph → Prop} (hq : StepClosed Q) (env : Env)
    (g : Graph) (obj : ServiceData) (h : Q g) : Q (coreServiceExternalName env g obj).1 := by
  unfold coreServiceExternalName
  exact hq.relOK _ _ _ _
    (graphNode_closed hq env.host _ _ _ (graphNode_closed hq env.host g _ _ h))

theorem coreService_closed {Q : Graph → Prop} (hq : StepClosed Q) (env : Env)
    (g : Graph) (obj : ServiceData) (h : Q g) : Q (coreService env g obj).1 := by
  unfold coreService
  split
  · exact coreServiceClusterIP_closed hq env g obj h
  · split
    · exact coreServiceLoadBalancer_closed hq env g obj h
    · split
      · exact coreServiceExternalName_closed hq env g obj h
      · exact h

theorem coreNode_closed {Q : Graph → Prop} (hq : StepClosed Q) (host : String)
    (g : Graph) (obj : NodeData) (h : Q g) : Q (coreNode host g obj).1 := by
  unfold coreNode
  apply foldl_preserve ?_ _ _ (graphNode_closed hq host g _ _ h)
  intro g2 ki hg2
  exact hq.relOK _ _ _ _ (graphNode_closed hq host g2 _ _ hg2)

theorem networkingRelationship_closed {Q : Graph → Prop} (hq : StepClosed Q) (g : Graph)
    (a : Node) (pt : PolicyType) (b : Node) (h : Q g) :
    Q (networkingRelationship g a pt b) := by
  unfold networkingRelationship
  cases pt
  · apply hq.attrOK
    split
    · exact hq.attrOK _ _ _ _ (hq.attrOK _ _ _ _ (hq.relOK _ _ _ _ h))
    · exact hq.attrOK _ _ _ _ (hq.relOK _ _ _ _ h)
  · apply hq.attrOK
    split
    · exact hq.attrOK _ _ _ _ (hq.attrOK _ _ _ _ (hq.relOK _ _ _ _ h))
    · exact hq.attrOK _ _ _ _ (hq.relOK _ _ _ _ h)

theorem networkPolicyPeerPodSelector_closed {Q : Graph → Prop} (hq : StepClosed Q)
    (env : Env) (g : Graph) (obj : NetworkPolicyData) (pt : PolicyType)
    (peer : PolicyPeerData) (h : Q g) :
    Q (networkPolicyPeerPodSelector env g obj pt peer).1 := by
  unfold networkPolicyPeerPodSelector
  split
  · exact graphNode_closed hq env.host g _ _ h
  · split
    · exact graphNode_closed hq env.host g _ _ h
    · apply foldl_preserve ?_ _ _ (graphNode_closed hq env.host g _ _ h)
      intro g2 pod hg2
      dsimp only
      split
      · exact corePod_closed hq env.host g2 pod hg2
      · exact networkingRelationship_closed hq _ _ _ _
          (corePod_closed hq env.host g2 pod hg2)

theorem networkPolicyPeerNamespaceSelector_closed {Q : Graph → Prop} (hq : StepClosed Q)
    (env : Env) (g : Graph) (obj : NetworkPolicyData) (pt : PolicyType)
    (peer : PolicyPeerData) (h : Q g) :
    Q (networkPolicyPeerNamespaceSelector env g obj pt peer).1 := by
  unfold networkPolicyPeerNamespaceSelector
  split
  · exact graphNode_closed hq env.host g _ _ h
  · split
    · exact graphNode_closed hq env.host g _ _ h
    · apply foldl_preserve ?_ _ _ (graphNode_closed hq env.host g _ _ h)
      intro g2 nsd hg2
      exact networkingRelationship_closed hq _ _ _ _
        (coreNamespace_closed hq env.host g2 nsd hg2)

theorem ipBlockNode_closed {Q : Graph → Prop} (hq : StepClosed Q) (host : String)
    (g : Graph) (cidr : String) (h : Q g) : Q (ipBlockNode host g cidr).1 :=
  graphNode_closed hq host g _ _ h

theorem networkPolicyPeerIPBlock_closed {Q : Graph → Prop} (hq : StepClosed Q)
    (env : Env) (g : Graph) (obj : NetworkPolicyData) (pt : PolicyType)
    (peer : PolicyPeerData) (h : Q g) :
    Q (networkPolicyPeerIPBlock env g obj pt peer).1 := by
  unfold networkPolicyPeerIPBlock
  exact networkingRelationship_closed hq _ _ _ _
    (ipBlockNode_closed hq env.host _ _ (graphNode_closed hq env.host g _ _ h))

theorem networkPolicyPeer_closed {Q : Graph → Prop} (hq : StepClosed Q)
    (env : Env) (g : Graph) (obj : NetworkPolicyData) (pt : PolicyType)
    (peer : PolicyPeerData) (h : Q g) : Q (networkPolicyPeer env g obj pt peer).1 := by
  unfold networkPolicyPeer
  split
  · exact networkPolicyPeerNamespaceSelector_closed hq env g obj pt peer h
  · split
    · exact networkPolicyPeerPodSelector_closed hq env g obj pt peer h
    · split
      · exact networkPolicyPeerIPBlock_closed hq env g obj pt peer h
      · exact h

theorem networkPolicyPeersLoop_closed {Q : Graph → Prop} (hq : StepClosed Q)
    (env : Env) (obj : NetworkPolicyData) (pt : PolicyType) :
    ∀ (peers : List PolicyPeerData) (g : Graph), Q g →
      Q (networkPolicyPeersLoop env obj pt g peers).1 := by
  intro peers
  induction peers with
  | nil => intro g h; exact h
  | cons peer more ih =>
    intro g h
    unfold networkPolicyPeersLoop
    dsimp only
    split
    · exact networkPolicyPeer_closed hq env g obj pt peer h
    · exact ih _ (networkPolicyPeer_closed hq env g obj pt peer h)

theorem networkPolicyRules_closed {Q : Graph → Prop} (hq : StepClosed Q)
    (env : Env) (obj : NetworkPolicyData) (pt : PolicyType) :
    ∀ (rules : List PolicyRuleData) (g : Graph), Q g →
      Q (networkPolicyRules env g obj pt rules).1 := by
  intro rules
  induction rules with
  | nil => intro g h; exact h
  | cons rule rest ih =>
    intro g h
    unfold networkPolicyRules
    dsimp only
    split
    · exact networkPolicyPeersLoop_closed hq env obj pt _ g h
    · exact ih _ (networkPolicyPeersLoop_closed hq env obj pt _ g h)

theorem networkPolicyPodLoop_closed {Q : Graph → Prop} (hq : StepClosed Q) (env : Env)
    (obj : NetworkPolicyData) (n : Node) :
    ∀ (pods : List PodData) (g2 : Graph), Q g2 →
      Q (pods.foldl (fun acc pod =>
          let rp := corePod env.host acc pod
          match rp.2 with
          | .error _ => rp.1
          | .ok p =>
            let ga := if obj.ingress = [] then rp.1
                      else networkingRelationship rp.1 n .ingressPolicy p
            if obj.egress = [] then ga
            else networkingRelationship ga n .egressPolicy p) g2) := by
  intro pods
  apply foldl_preserve
  intro g2 pod hg2
  dsimp only
  split
  · exact corePod_closed hq env.host g2 pod hg2
  · split
    · split
      · exact corePod_closed hq env.host g2 pod hg2
      · exact networkingRelationship_closed hq _ _ _ _
          (corePod_closed hq env.host g2 pod hg2)
    · apply networkingRelationship_closed hq
      split
      · exact corePod_closed hq env.host g2 pod hg2
      · exact networkingRelationship_closed hq _ _ _ _
          (corePod_closed hq env.host g2 pod hg2)

theorem networkPolicy_closed {Q : Graph → Prop} (hq : StepClosed Q) (env : Env)
    (g : Graph) (obj : NetworkPolicyData) (h : Q g) : Q (networkPolicy env g obj).1 := by
  unfold networkPolicy
  dsimp only
  split
  · exact graphNode_closed hq env.host g _ _ h
  · split
    · exact graphNode_closed hq env.host g _ _ h
    · split
      · exact networkPolicyRules_closed hq env obj .ingressPolicy obj.ingress _
          (networkPolicyPodLoop_closed hq env obj _ _ _
            (graphNode_closed hq env.host g _ _ h))
      · split
        · exact networkPolicyRules_closed hq env obj .egressPolicy obj.egress _
            (networkPolicyRules_closed hq env obj .ingressPolicy obj.ingress _
              (networkPolicyPodLoop_closed hq env obj _ _ _
                (graphNode_closed hq env.host g _ _ h)))
        · exact networkPolicyRules_closed hq env obj .egressPolicy obj.egress _
            (networkPolicyRules_closed hq env obj .ingressPolicy obj.ingress _
              (networkPolicyPodLoop_closed hq env obj _ _ _
                (graphNode_closed hq env.host g _ _ h)))

theorem coreUnstructured_closed {Q : Graph → Prop} (hq : StepClosed Q) (env : Env)
    (g : Graph) (u : Unstructured) (h : Q g) : Q (coreUnstructured env g u).1 := by
  unfold coreUnstructured
  split
  · exact coreNamespace_closed hq env.host g _ h
  · exact h
  · exact corePod_closed hq env.host g _ h
  · exact h
  · exact coreEndpoints_closed hq env.host g _ h
  · exact h
  · exact coreService_closed hq env g _ h
  · exact h
  · exact coreNode_closed hq env.host g _ h
  · exact h
  · exact h

theorem networkingUnstructured_closed {Q : Graph → Prop} (hq : StepClosed Q) (env : Env)
    (g : Graph) (u : Unstructured) (h : Q g) : Q (networkingUnstructured env g u).1 := by
  unfold networkingUnstructured
  split
  · exact networkPolicy_closed hq env g _ h
  · exact h
  · exact h

theorem graphUnstructured_closed {Q : Graph → Prop} (hq : StepClosed Q) (env : Env)
    (g : Graph) (u : Unstructured) (h : Q g) : Q (graphUnstructured env g u).1 := by
  unfold graphUnstructured
  dsimp only
  split
  · exact coreUnstructured_closed hq env _ u (graphNode_closed hq env.host g _ _ h)
  · exact networkingUnstructured_closed hq env _ u (graphNode_closed hq env.host g _ _ h)
  · exact graphNode_closed hq env.host g _ _ h

theorem newGraph_fold_closed {Q : Graph → Prop} (hq : StepClosed Q) (env : Env) :
    ∀ (objs : List Unstructured) (acc : Graph × List String), Q acc.1 →
      Q ((objs.foldl (fun acc u =>
          let r := graphUnstructured env acc.1 u
          match r.2 with
          | .ok _ => (r.1, acc.2)
          | .error e => (r.1, acc.2 ++ [e])) acc)).1 := by
  intro objs
  induction objs with
  | nil => intro acc h; exact h
  | cons u rest ih =>
    intro acc h
    rw [List.foldl_cons]
    apply ih
    dsimp only
    split
    · exact graphUnstructured_closed hq env acc.1 u h
    · exact graphUnstructured_closed hq env acc.1 u h

theorem newGraph_closed {Q : Graph → Prop} (hq : StepClosed Q) (env : Env)
    (objs : List Unstructured) (h : Q emptyGraph) : Q (newGraph env objs).1 :=
  newGraph_fold_closed hq env objs (emptyGraph, []) h
/-- C9: an object of group-kind `Namespace` is returned by `Graph.Node`
without being stored and without an owner walk (the graph is unchanged), and
consequently no graph the engine builds ever stores a core-group Namespace
node record — Namespace entities appear only as relationship endpoints. -/
theorem c9_no_namespace_nodes :
    (∀ (host : String) (g : Graph) (gvk : GroupVersionKind) (obj : ObjectMeta),
      gvk.groupKindString = "Namespace" →
      graphNode host g gvk obj = (g, nodeOf gvk obj)) ∧
    (∀ (env : Env) (objs : List Unstructured),
      storeNodesProp nodeNotCoreNamespace (newGraph env objs).1) := by
  constructor
  · intro host g gvk obj hg
    unfold graphNode
    rw [if_pos hg]
  · intro env objs
    apply newGraph_closed stepClosed_noNamespace
    intro ce hce nsb hnsb p hp
    simp [emptyGraph] at hce

theorem c9_no_namespace_nodes_witness :
    (⟨"", "", "Namespace"⟩ : GroupVersionKind).groupKindString = "Namespace" ∧
    graphNode "h" emptyGraph ⟨"", "", "Namespace"⟩ (ObjectMeta.mk "ns" "ns" "nsu" "" [] [] []) =
      (emptyGraph, nodeOf ⟨"", "", "Namespace"⟩ (ObjectMeta.mk "ns" "ns" "nsu" "" [] [] [])) ∧
    storeNodesProp nodeNotCoreNamespace
      (newGraph ⟨"h", fun _ _ => .error "e", fun _ _ => .error "e",
          fun _ _ _ => .error "e", fun _ => .error "e"⟩
        [⟨"v1", "Namespace", ObjectMeta.mk "ns" "" "nsu" "" [] [] [], .namespaceContent⟩]).1 :=
  ⟨by decide,
   c9_no_namespace_nodes.1 "h" emptyGraph ⟨"", "", "Namespace"⟩
     (ObjectMeta.mk "ns" "ns" "nsu" "" [] [] []) (by decide),
   c9_no_namespace_nodes.2 ⟨"h", fun _ _ => .error "e", fun _ _ => .error "e",
       fun _ _ _ => .error "e", fun _ => .error "e"⟩
     [⟨"v1", "Namespace", ObjectMeta.mk "ns" "" "nsu" "" [] [] [], .namespaceContent⟩]⟩

/-! ### Producer error components depend only on the environment and object -/

theorem graphNode_snd (host : String) (g : Graph) (gvk : GroupVersionKind)
    (obj : ObjectMeta) : (graphNode host g gvk obj).2 = nodeOf gvk obj := by
  unfold graphNode
  split <;> rfl

theorem corePod_snd (host : String) (g : Graph) (pod : PodData) :
    (corePod host g pod).2 = .ok (nodeOf (fromAPIVersionAndKind "" "Pod") pod.meta) := by
  unfold corePod
  dsimp only
  rw [graphNode_snd]

theorem coreEndpoints_snd (host : String) (g : Graph) (obj : EndpointsData) :
    (coreEndpoints host g obj).2 =
      .ok (nodeOf (fromAPIVersionAndKind "" "Endpoints") obj.meta) := by
  unfold coreEndpoints
  dsimp only
  rw [graphNode_snd]

theorem coreNamespace_snd (host : String) (g : Graph) (obj : NamespaceData) :
    (coreNamespace host g obj).2 = nodeOf (fromAPIVersionAndKind "" "Namespace")
      { obj.meta with uid := obj.meta.name, nspace := obj.meta.name } := by
  unfold coreNamespace
  rw [graphNode_snd]

theorem coreNode_snd (host : String) (g : Graph) (obj : NodeData) :
    (coreNode host g obj).2 =
      .ok (nodeOf (fromAPIVersionAndKind obj.apiVersion obj.kind) obj.meta) := by
  unfold coreNode
  dsimp only
  rw [graphNode_snd]

theorem coreServiceClusterIP_snd (env : Env) (g g2 : Graph) (obj : ServiceData) :
    (coreServiceClusterIP env g obj).2 = (coreServiceClusterIP env g2 obj).2 := by
  unfold coreServiceClusterIP
  dsimp only
  cases env.getEndpoints obj.meta.nspace obj.meta.name with
  | error e => rfl
  | ok ep =>
    dsimp only
    rw [coreEndpoints_snd, coreEndpoints_snd]
    dsimp only
    rw [graphNode_snd, graphNode_snd]

theorem coreServiceLoadBalancer_snd (env : Env) (g g2 : Graph) (obj : ServiceData) :
    (coreServiceLoadBalancer env g obj).2 = (coreServiceLoadBalancer env g2 obj).2 := by
  unfold coreServiceLoadBalancer
  dsimp only
  cases env.getEndpoints obj.meta.nspace obj.meta.name with
  | error e => rfl
  | ok ep =>
    dsimp only
    rw [coreEndpoints_snd, coreEndpoints_snd]
    dsimp only
    rw [graphNode_snd, graphNode_snd]

theorem coreServiceExternalName_snd (env : Env) (g g2 : Graph) (obj : ServiceData) :
    (coreServiceExternalName env g obj).2 = (coreServiceExternalName env g2 obj).2 := by
  unfold coreServiceExternalName
  dsimp only
  rw [graphNode_snd, graphNode_snd]

theorem coreService_snd (env : Env) (g g2 : Graph) (obj : ServiceData) :
    (coreService env g obj).2 = (coreService env g2 obj).2 := by
  unfold coreService
  split_ifs
  · exact coreServiceClusterIP_snd env g g2 obj
  · exact coreServiceLoadBalancer_snd env g g2 obj
  · exact coreServiceExternalName_snd env g g2 obj
  · rfl

theorem networkPolicyPeerPodSelector_snd (env : Env) (g g2 : Graph)
    (obj : NetworkPolicyData) (pt : PolicyType) (peer : PolicyPeerData) :
    (networkPolicyPeerPodSelector env g obj pt peer).2 =
      (networkPolicyPeerPodSelector env g2 obj pt peer).2 := by
  unfold networkPolicyPeerPodSelector
  dsimp only
  cases labelSelectorAsSelector (peer.podSelector.getD ⟨[], []⟩) with
  | error e => rfl
  | ok sel =>
    dsimp only
    cases env.listPods obj.meta.nspace sel "status.phase=Running" with
    | error e => rfl
    | ok pods => rfl

theorem networkPolicyPeerNamespaceSelector_snd (env : Env) (g g2 : Graph)
    (obj : NetworkPolicyData) (pt : PolicyType) (peer : PolicyPeerData) :
    (networkPolicyPeerNamespaceSelector env g obj pt peer).2 =
      (networkPolicyPeerNamespaceSelector env g2 obj pt peer).2 := by
  unfold networkPolicyPeerNamespaceSelector
  dsimp only
  cases labelSelectorAsSelector (peer.namespaceSelector.getD ⟨[], []⟩) with
  | error e => rfl
  | ok sel =>
    dsimp only
    cases env.listNamespaces sel with
    | error e => rfl
    | ok nss =>
      dsimp only
      rw [graphNode_snd, graphNode_snd]

theorem networkPolicyPeerIPBlock_snd (env : Env) (g g2 : Graph)
    (obj : NetworkPolicyData) (pt : PolicyType) (peer : PolicyPeerData) :
    (networkPolicyPeerIPBlock env g obj pt peer).2 =
      (networkPolicyPeerIPBlock env g2 obj pt peer).2 := by
  unfold networkPolicyPeerIPBlock
  dsimp only
  rw [graphNode_snd, graphNode_snd]

theorem networkPolicyPeer_snd (env : Env) (g g2 : Graph) (obj : NetworkPolicyData)
    (pt : PolicyType) (peer : PolicyPeerData) :
    (networkPolicyPeer env g obj pt peer).2 = (networkPolicyPeer env g2 obj pt peer).2 := by
  unfold networkPolicyPeer
  split
  · exact networkPolicyPeerNamespaceSelector_snd env g g2 obj pt peer
  · split
    · exact networkPolicyPeerPodSelector_snd env g g2 obj pt peer
    · split
      · exact networkPolicyPeerIPBlock_snd env g g2 obj pt peer
      · rfl

theorem networkPolicyPeersLoop_snd (env : Env) (obj : NetworkPolicyData) (pt : PolicyType) :
    ∀ (peers : List PolicyPeerData) (g g2 : Graph),
      (networkPolicyPeersLoop env obj pt g peers).2 =
        (networkPolicyPeersLoop env obj pt g2 peers).2 := by
  intro peers
  induction peers with
  | nil => intro g g2; rfl
  | cons peer more ih =>
    intro g g2
    unfold networkPolicyPeersLoop
    dsimp only
    cases h1 : (networkPolicyPeer env g obj pt peer).2 with
    | error e =>
      have h2 : (networkPolicyPeer env g2 obj pt peer).2 = .error e :=
        (networkPolicyPeer_snd env g2 g obj pt peer).trans h1
      rw [h2]
    | ok a =>
      have h2 : (networkPolicyPeer env g2 obj pt peer).2 = .ok a :=
        (networkPolicyPeer_snd env g2 g obj pt peer).trans h1
      rw [h2]
      exact ih _ _

theorem networkPolicyRules_snd (env : Env) (obj : NetworkPolicyData) (pt : PolicyType) :
    ∀ (rules : List PolicyRuleData) (g g2 : Graph),
      (networkPolicyRules env g obj pt rules).2 =
        (networkPolicyRules env g2 obj pt rules).2 := by
  intro rules
  induction rules with
  | nil => intro g g2; rfl
  | cons rule rest ih =>
    intro g g2
    unfold networkPolicyRules
    dsimp only
    cases h1 : (networkPolicyPeersLoop env obj pt g (rulePeers rule)).2 with
    | error e =>
      have h2 : (networkPolicyPeersLoop env obj pt g2 (rulePeers rule)).2 = .error e :=
        (networkPolicyPeersLoop_snd env obj pt _ g2 g).trans h1
      rw [h2]
    | ok a =>
      have h2 : (networkPolicyPeersLoop env obj pt g2 (rulePeers rule)).2 = .ok a :=
        (networkPolicyPeersLoop_snd env obj pt _ g2 g).trans h1
      rw [h2]
      exact ih _ _

theorem networkPolicy_snd (env : Env) (g : Graph) (obj : NetworkPolicyData) :
    (networkPolicy env g obj).2 =
      match labelSelectorAsSelector obj.podSelector with
      | .error e => .error e
      | .ok sel =>
        match env.listPods obj.meta.nspace sel "status.phase=Running" with
        | .error e => .error e
        | .ok _ =>
          match (networkPolicyRules env emptyGraph obj .ingressPolicy obj.ingress).2 with
          | .error e => .error e
          | .ok _ =>
            match (networkPolicyRules env emptyGraph obj .egressPolicy obj.egress).2 with
            | .error e => .error e
            | .ok _ =>
              .ok (nodeOf (fromAPIVersionAndKind obj.apiVersion obj.kind) obj.meta) := by
  unfold networkPolicy
  dsimp only
  cases labelSelectorAsSelector obj.podSelector with
  | error e => rfl
  | ok sel =>
    dsimp only
    cases env.listPods obj.meta.nspace sel "status.phase=Running" with
    | error e => rfl
    | ok pods =>
      dsimp only
      cases h1 : (networkPolicyRules env emptyGraph obj .ingressPolicy obj.ingress).2 with
      | error e =>
        rw [networkPolicyRules_snd env obj .ingressPolicy obj.ingress _ emptyGraph, h1]
      | ok a =>
        rw [networkPolicyRules_snd env obj .ingressPolicy obj.ingress _ emptyGraph, h1]
        dsimp only
        cases h3 : (networkPolicyRules env emptyGraph obj .egressPolicy obj.egress).2 with
        | error e =>
          rw [networkPolicyRules_snd env obj .egressPolicy obj.egress _ emptyGraph, h3]
        | ok a2 =>
          rw [networkPolicyRules_snd env obj .egressPolicy obj.egress _ emptyGraph, h3]
          dsimp only
          rw [graphNode_snd]
theorem coreUnstructured_snd (env : Env) (g g2 : Graph) (u : Unstructured) :
    (coreUnstructured env g u).2 = (coreUnstructured env g2 u).2 := by
  unfold coreUnstructured
  dsimp only
  split
  · rfl
  · rfl
  · rw [corePod_snd, corePod_snd]
  · rfl
  · rw [coreEndpoints_snd, coreEndpoints_snd]
  · rfl
  · rw [coreService_snd env g g2]
  · rfl
  · rw [coreNode_snd, coreNode_snd]
  · rfl
  · rfl

theorem networkingUnstructured_snd (env : Env) (g g2 : Graph) (u : Unstructured) :
    (networkingUnstructured env g u).2 = (networkingUnstructured env g2 u).2 := by
  unfold networkingUnstructured
  dsimp only
  split
  · rw [networkPolicy_snd, networkPolicy_snd]
  · rfl
  · rfl

theorem graphUnstructured_snd (env : Env) (g g2 : Graph) (u : Unstructured) :
    (graphUnstructured env g u).2 = (graphUnstructured env g2 u).2 := by
  unfold graphUnstructured
  dsimp only
  split
  · exact coreUnstructured_snd env _ _ u
  · exact networkingUnstructured_snd env _ _ u
  · rfl

theorem graphUnstructured_err (env : Env) (g : Graph) (u : Unstructured) :
    errOf (graphUnstructured env g u).2 = unstructuredErr env u := by
  unfold unstructuredErr
  rw [graphUnstructured_snd env g emptyGraph u]

theorem newGraph_fold_errs (env : Env) :
    ∀ (objs : List Unstructured) (acc : Graph × List String),
      (objs.foldl (fun acc u =>
        let r := graphUnstructured env acc.1 u
        match r.2 with
        | .ok _ => (r.1, acc.2)
        | .error e => (r.1, acc.2 ++ [e])) acc).2 =
      acc.2 ++ objs.filterMap (unstructuredErr env) := by
  intro objs
  induction objs with
  | nil => intro acc; simp
  | cons u rest ih =>
    intro acc
    rw [List.foldl_cons, ih]
    dsimp only
    cases hr : (graphUnstructured env acc.1 u).2 with
    | ok a =>
      have he : unstructuredErr env u = none := by
        rw [← graphUnstructured_err env acc.1 u, hr]
        rfl
      simp [List.filterMap_cons, he]
    | error e =>
      have he : unstructuredErr env u = some e := by
        rw [← graphUnstructured_err env acc.1 u, hr]
        rfl
      simp [List.filterMap_cons, he]

theorem graphNode_contains (host : String) (g : Graph) (gvk : GroupVersionKind)
    (obj : ObjectMeta) (hg : gvk.groupKindString ≠ "Namespace") :
    containsUID (graphNode host g gvk obj).1 obj.uid = true := by
  unfold graphNode
  rw [if_neg hg]
  dsimp only
  apply @foldl_preserve OwnerReference (fun gx => containsUID gx obj.uid = true) _
    ?_ obj.ownerReferences _
    (containsUID_insertNode_self g (effCluster host obj) obj.nspace obj.uid (nodeOf gvk obj))
  intro g2 oref hg2
  exact (stepClosed_containsUID obj.uid).relOK _ _ _ _
    (graphNodeOwner_closed (stepClosed_containsUID obj.uid) host g2 _ _ hg2)

theorem graphUnstructured_contains (env : Env) (g : Graph) (u : Unstructured)
    (hg : (fromAPIVersionAndKind u.apiVersion u.kind).groupKindString ≠ "Namespace") :
    containsUID (graphUnstructured env g u).1 u.meta.uid = true := by
  unfold graphUnstructured
  dsimp only
  split
  · exact coreUnstructured_closed (stepClosed_containsUID _) env _ u
      (graphNode_contains env.host g _ u.meta hg)
  · exact networkingUnstructured_closed (stepClosed_containsUID _) env _ u
      (graphNode_contains env.host g _ u.meta hg)
  · exact graphNode_contains env.host g _ u.meta hg

/-- C8: when a producer invocation fails, the resource's own node is still
created (unless the object itself is of group-kind Namespace, which is never
stored) and ingest continues with the remaining objects; the recorded errors
are exactly the per-object producer errors (which depend only on the
environment and the object), and the aggregate is nil exactly when no error
was recorded. -/
theorem c8_error_containment :
    (∀ (env : Env) (objs : List Unstructured) (u : Unstructured), u ∈ objs →
      (fromAPIVersionAndKind u.apiVersion u.kind).groupKindString ≠ "Namespace" →
      containsUID (newGraph env objs).1 u.meta.uid = true) ∧
    (∀ (env : Env) (objs : List Unstructured),
      (newGraph env objs).2 = objs.filterMap (unstructuredErr env)) ∧
    (∀ (env : Env) (objs : List Unstructured),
      (newGraphAggregate env objs).2 = none ↔
        objs.filterMap (unstructuredErr env) = []) := by
  have hb : ∀ (env : Env) (objs : List Unstructured),
      (newGraph env objs).2 = objs.filterMap (unstructuredErr env) := by
    intro env objs
    unfold newGraph
    exact (newGraph_fold_errs env objs (emptyGraph, [])).trans (by simp)
  refine ⟨?_, hb, ?_⟩
  · intro env objs u hu hg
    rcases List.append_of_mem hu with ⟨s, t, rfl⟩
    unfold newGraph
    rw [List.foldl_append, List.foldl_cons]
    apply newGraph_fold_closed (stepClosed_containsUID u.meta.uid) env t
    dsimp only
    cases hr : (graphUnstructured env (List.foldl (fun acc u =>
        let r := graphUnstructured env acc.1 u
        match r.2 with
        | .ok _ => (r.1, acc.2)
        | .error e => (r.1, acc.2 ++ [e])) (emptyGraph, []) s).1 u).2 with
    | ok a =>
      dsimp only
      exact graphUnstructured_contains env _ u hg
    | error e =>
      dsimp only
      exact graphUnstructured_contains env _ u hg
  · intro env objs
    have hbe := hb env objs
    unfold newGraphAggregate
    dsimp only
    rw [hbe]
    constructor
    · intro h
      by_contra hne
      rw [if_neg hne] at h
      cases h
    · intro h
      rw [if_pos h]

unseal splitOnChar in
theorem c8_error_containment_witness :
    (⟨"v1", "Pod", ObjectMeta.mk "p" "ns" "pu" "" [] [] [], .podContent []⟩ : Unstructured) ∈
      [(⟨"v1", "Service", ObjectMeta.mk "s" "ns" "su" "" [] [] [],
          .serviceContent "ClusterIP" ""⟩ : Unstructured),
       ⟨"v1", "Pod", ObjectMeta.mk "p" "ns" "pu" "" [] [] [], .podContent []⟩] ∧
    (fromAPIVersionAndKind "v1" "Pod").groupKindString ≠ "Namespace" ∧
    containsUID (newGraph ⟨"h", fun _ _ => .error "boom", fun _ _ => .error "e",
        fun _ _ _ => .error "e", fun _ => .error "e"⟩
      [⟨"v1", "Service", ObjectMeta.mk "s" "ns" "su" "" [] [] [],
          .serviceContent "ClusterIP" ""⟩,
       ⟨"v1", "Pod", ObjectMeta.mk "p" "ns" "pu" "" [] [] [], .podContent []⟩]).1 "pu" =
      true ∧
    (newGraph ⟨"h", fun _ _ => .error "boom", fun _ _ => .error "e",
        fun _ _ _ => .error "e", fun _ => .error "e"⟩
      [⟨"v1", "Service", ObjectMeta.mk "s" "ns" "su" "" [] [] [],
          .serviceContent "ClusterIP" ""⟩,
       ⟨"v1", "Pod", ObjectMeta.mk "p" "ns" "pu" "" [] [] [], .podContent []⟩]).2 =
      [⟨"v1", "Service", ObjectMeta.mk "s" "ns" "su" "" [] [] [],
          .serviceContent "ClusterIP" ""⟩,
       ⟨"v1", "Pod", ObjectMeta.mk "p" "ns" "pu" "" [] [] [], .podContent []⟩].filterMap
        (unstructuredErr ⟨"h", fun _ _ => .error "boom", fun _ _ => .error "e",
          fun _ _ _ => .error "e", fun _ => .error "e"⟩) :=
  ⟨by decide, by decide,
   c8_error_containment.1 ⟨"h", fun _ _ => .error "boom", fun _ _ => .error "e",
       fun _ _ _ => .error "e", fun _ => .error "e"⟩
     [⟨"v1", "Service", ObjectMeta.mk "s" "ns" "su" "" [] [] [],
         .serviceContent "ClusterIP" ""⟩,
      ⟨"v1", "Pod", ObjectMeta.mk "p" "ns" "pu" "" [] [] [], .podContent []⟩]
     ⟨"v1", "Pod", ObjectMeta.mk "p" "ns" "pu" "" [] [] [], .podContent []⟩
     (by decide) (by decide),
   c8_error_containment.2.1 ⟨"h", fun _ _ => .error "boom", fun _ _ => .error "e",
       fun _ _ _ => .error "e", fun _ => .error "e"⟩
     [⟨"v1", "Service", ObjectMeta.mk "s" "ns" "su" "" [] [] [],
         .serviceContent "ClusterIP" ""⟩,
      ⟨"v1", "Pod", ObjectMeta.mk "p" "ns" "pu" "" [] [] [], .podContent []⟩]⟩

theorem findIdxAllNone {α : Type} (p : α → Bool) :
    ∀ (l : List α) (s : Nat), (∀ x ∈ l, p x = false) → List.findIdx? p l s = none := by
  intro l
  induction l with
  | nil => intro s h; rfl
  | cons y ys ih =>
    intro s h
    have hy := h y (List.mem_cons_self y ys)
    rw [List.findIdx?_cons, hy]
    simpa using ih (s + 1) (fun x hx => h x (List.mem_cons_of_mem _ hx))

theorem relPair_bucket_none (g : Graph) (u1 u2 : String) (hwf : relWF g)
    (hnp : relPairExists g u1 u2 = false) :
    ∀ r ∈ (getA g.relationships u1).getD [], (r.toRef.uid == u2) = false := by
  intro r hr
  cases hg : getA g.relationships u1 with
  | none => rw [hg] at hr; cases hr
  | some bk =>
    rw [hg, Option.getD_some] at hr
    have hmem := getA_mem u1 bk g.relationships hg
    have hfrom : r.fromRef.uid = u1 := (hwf.2 (u1, bk) hmem).1 r hr
    by_contra hne
    have ht : (r.toRef.uid == u2) = true := by
      cases hb : (r.toRef.uid == u2) with
      | false => exact absurd hb hne
      | true => rfl
    have htrue : relPairExists g u1 u2 = true := by
      unfold relPairExists
      apply List.any_eq_true.mpr
      refine ⟨(u1, bk), hmem, ?_⟩
      apply List.any_eq_true.mpr
      exact ⟨r, hr, by simp [hfrom, ht]⟩
    rw [htrue] at hnp
    cases hnp

/-- A `Graph.Relationship` call whose ordered endpoint pair is not yet present
in a well-formed store appends an edge carrying exactly the requested label. -/
theorem relExistsLabeled_create (g : Graph) (a : Node) (lab : String) (b : Node)
    (hwf : relWF g) (hnp : relPairExists g a.uid b.uid = false) :
    relExistsLabeled (graphRelationship g a lab b).1 a.uid lab b.uid = true := by
  have hall := relPair_bucket_none g a.uid b.uid hwf hnp
  have hnone : List.findIdx? (fun r => r.toRef.uid = b.uid)
      ((getA g.relationships a.uid).getD []) 0 = none := by
    apply findIdxAllNone
    intro x hx
    simpa using hall x hx
  rcases graphRelationship_spec g a lab b with ⟨i, hf, he⟩ | ⟨hf, he⟩
  · rw [hnone] at hf; cases hf
  · rw [he]
    unfold relExistsLabeled
    dsimp only
    apply any_setA_self
    dsimp only
    apply List.any_eq_true.mpr
    refine ⟨⟨⟨a.kind, a.uid⟩, lab, ⟨b.kind, b.uid⟩, []⟩,
      List.mem_append_right _ (List.mem_singleton_self _), ?_⟩
    simp

/-- C6: `CoreV1Graph.Service` branches on `Spec.Type`.  For `ClusterIP` and
`LoadBalancer` it live-gets the Endpoints object with the service name in the
service namespace (surfacing the lookup error verbatim) and, when the ordered
pair is not already stored, creates a `service -> endpoints` edge labeled
`Endpoints`; for `ExternalName` it creates a synthetic node whose UID is
`ToUID` of the external-name string alone and a `service -> external` edge
labeled `ExternalName`; every other service type leaves the graph untouched
and returns `nil, nil`. -/
theorem c6_service_branches (env : Env) (g : Graph) (obj : ServiceData)
    (hwf : relWF g) :
    ((obj.serviceType = "ClusterIP" ∨ obj.serviceType = "LoadBalancer") →
      (∀ e, env.getEndpoints obj.meta.nspace obj.meta.name = .error e →
        coreService env g obj =
          ((graphNode env.host g (fromAPIVersionAndKind "" "Service") obj.meta).1,
           .error e)) ∧
      (∀ ep, env.getEndpoints obj.meta.nspace obj.meta.name = .ok ep →
        (relPairExists
            (coreEndpoints env.host
              (graphNode env.host g (fromAPIVersionAndKind "" "Service") obj.meta).1 ep).1
            obj.meta.uid ep.meta.uid = false →
          relExistsLabeled (coreService env g obj).1
            obj.meta.uid "Endpoints" ep.meta.uid = true) ∧
        (coreService env g obj).2 =
          .ok (some (nodeOf (fromAPIVersionAndKind "" "Service") obj.meta)))) ∧
    (obj.serviceType = "ExternalName" →
      (relPairExists
          (graphNode env.host
            (graphNode env.host g (fromAPIVersionAndKind "" "Service") obj.meta).1
            (fromAPIVersionAndKind "" "ExternalName")
            { uid := toUID [obj.externalName], name := obj.externalName }).1
          obj.meta.uid (toUID [obj.externalName]) = false →
        relExistsLabeled (coreService env g obj).1
          obj.meta.uid "ExternalName" (toUID [obj.externalName]) = true) ∧
      (coreService env g obj).2 =
        .ok (some (nodeOf (fromAPIVersionAndKind "" "Service") obj.meta))) ∧
    (obj.serviceType ≠ "ClusterIP" → obj.serviceType ≠ "LoadBalancer" →
      obj.serviceType ≠ "ExternalName" →
      coreService env g obj = (g, .ok none)) := by
  refine ⟨?_, ?_, ?_⟩
  · intro hty
    have hred : coreService env g obj = coreServiceClusterIP env g obj := by
      rcases hty with hct | hlb
      · unfold coreService
        rw [if_pos hct]
      · unfold coreService
        rw [hlb]
        rw [if_neg (by decide), if_pos rfl]
        unfold coreServiceClusterIP coreServiceLoadBalancer
        rfl
    rw [hred]
    constructor
    · intro e he
      unfold coreServiceClusterIP
      rw [he]
    · intro ep hep
      unfold coreServiceClusterIP
      rw [hep]
      dsimp only
      rw [coreEndpoints_snd]
      dsimp only
      constructor
      · intro hnp
        rw [graphNode_snd]
        exact relExistsLabeled_create _ _ _ _
          (coreEndpoints_closed stepClosed_relWF env.host _ ep
            (graphNode_closed stepClosed_relWF env.host g _ obj.meta hwf))
          hnp
      · rw [graphNode_snd]
  · intro hty
    have hred : coreService env g obj = coreServiceExternalName env g obj := by
      unfold coreService
      rw [hty]
      rw [if_neg (by decide), if_neg (by decide), if_pos rfl]
    rw [hred]
    unfold coreServiceExternalName
    dsimp only
    constructor
    · intro hnp
      rw [graphNode_snd, graphNode_snd]
      exact relExistsLabeled_create _ _ _ _
        (graphNode_closed stepClosed_relWF env.host _ _ _
          (graphNode_closed stepClosed_relWF env.host g _ obj.meta hwf))
        hnp
    · rw [graphNode_snd]
  · intro h1 h2 h3
    unfold coreService
    rw [if_neg h1, if_neg h2, if_neg h3]

unseal splitOnChar in
theorem c6_service_branches_witness :
    relWF emptyGraph ∧
    (⟨⟨"s", "n", "su", "", [], [], []⟩, "ClusterIP", ""⟩ : ServiceData).serviceType =
      "ClusterIP" ∧
    (⟨"h", fun _ _ => .ok ⟨⟨"s", "n", "eu", "", [], [], []⟩, []⟩,
        fun _ _ => .error "e", fun _ _ _ => .error "e",
        fun _ => .error "e"⟩ : Env).getEndpoints "n" "s" =
      .ok ⟨⟨"s", "n", "eu", "", [], [], []⟩, []⟩ ∧
    relPairExists
      (coreEndpoints "h"
        (graphNode "h" emptyGraph (fromAPIVersionAndKind "" "Service")
          ⟨"s", "n", "su", "", [], [], []⟩).1
        ⟨⟨"s", "n", "eu", "", [], [], []⟩, []⟩).1 "su" "eu" = false ∧
    relExistsLabeled
      (coreService
        ⟨"h", fun _ _ => .ok ⟨⟨"s", "n", "eu", "", [], [], []⟩, []⟩,
          fun _ _ => .error "e", fun _ _ _ => .error "e", fun _ => .error "e"⟩
        emptyGraph
        ⟨⟨"s", "n", "su", "", [], [], []⟩, "ClusterIP", ""⟩).1
      "su" "Endpoints" "eu" = true :=
  ⟨relWF_emptyGraph, rfl, rfl, by decide,
   (((c6_service_branches
        ⟨"h", fun _ _ => .ok ⟨⟨"s", "n", "eu", "", [], [], []⟩, []⟩,
          fun _ _ => .error "e", fun _ _ _ => .error "e", fun _ => .error "e"⟩
        emptyGraph
        ⟨⟨"s", "n", "su", "", [], [], []⟩, "ClusterIP", ""⟩
        relWF_emptyGraph).1 (Or.inl rfl)).2
      ⟨⟨"s", "n", "eu", "", [], [], []⟩, []⟩ rfl).1 (by decide)⟩

unseal splitOnChar in
/-- C5: refuted on the pod-selector peer branch.
`NetworkPolicyPeerPodSelector` calls `g.Relationship(n, v1.PolicyTypeIngress, p)`
with the policy node as `from` and the policy type hard-coded to `Ingress`, so
(a) for an ingress rule the edge runs policy-to-pod (the claimed direction,
peer-to-policy, never appears), and (b) for an egress rule the edge is still
labeled `Ingress` and colored `#34A853` instead of the egress color `#EA4335`.
Both are shown on a one-pod store built by the code itself; the two other peer
branches do follow the claimed direction, which part (c) records for the
namespace-selector branch. -/
theorem c5_pod_peer_direction_bug :
    (relPairExists
        (networkPolicyPeer
          ⟨"h", fun _ _ => .error "e", fun _ _ => .error "e",
            fun _ _ _ => .ok [⟨⟨"p", "n", "pu", "", [], [], []⟩, []⟩],
            fun _ => .error "e"⟩
          emptyGraph
          ⟨"networking.k8s.io/v1", "NetworkPolicy", ⟨"np", "n", "npu", "", [], [], []⟩,
            ⟨[], []⟩, [], []⟩
          .ingressPolicy ⟨some ⟨[], []⟩, none, none⟩).1
        "pu" "npu" = false) ∧
    (getRel
        (networkPolicyPeer
          ⟨"h", fun _ _ => .error "e", fun _ _ => .error "e",
            fun _ _ _ => .ok [⟨⟨"p", "n", "pu", "", [], [], []⟩, []⟩],
            fun _ => .error "e"⟩
          emptyGraph
          ⟨"networking.k8s.io/v1", "NetworkPolicy", ⟨"np", "n", "npu", "", [], [], []⟩,
            ⟨[], []⟩, [], []⟩
          .ingressPolicy ⟨some ⟨[], []⟩, none, none⟩).1
        ("npu", 0) =
      some ⟨⟨"NetworkPolicy", "npu"⟩, "Ingress", ⟨"Pod", "pu"⟩,
        [("color", "#34A853"), ("style", "dashed")]⟩) ∧
    (getRel
        (networkPolicyPeer
          ⟨"h", fun _ _ => .error "e", fun _ _ => .error "e",
            fun _ _ _ => .ok [⟨⟨"p", "n", "pu", "", [], [], []⟩, []⟩],
            fun _ => .error "e"⟩
          emptyGraph
          ⟨"networking.k8s.io/v1", "NetworkPolicy", ⟨"np", "n", "npu", "", [], [], []⟩,
            ⟨[], []⟩, [], []⟩
          .egressPolicy ⟨some ⟨[], []⟩, none, none⟩).1
        ("npu", 0) =
      some ⟨⟨"NetworkPolicy", "npu"⟩, "Ingress", ⟨"Pod", "pu"⟩,
        [("color", "#34A853"), ("style", "dashed")]⟩) ∧
    (relExistsLabeled
        (networkPolicyPeer
          ⟨"h", fun _ _ => .error "e", fun _ _ => .error "e",
            fun _ _ _ => .ok [⟨⟨"p", "n", "pu", "", [], [], []⟩, []⟩],
            fun _ => .error "e"⟩
          emptyGraph
          ⟨"networking.k8s.io/v1", "NetworkPolicy", ⟨"np", "n", "npu", "", [], [], []⟩,
            ⟨[], []⟩, [], []⟩
          .egressPolicy ⟨some ⟨[], []⟩, none, none⟩).1
        "npu" "Egress" "pu" = false) ∧
    ((networkPolicyPeer
        ⟨"h", fun _ _ => .error "e", fun _ _ => .error "e",
          fun _ _ _ => .ok [⟨⟨"p", "n", "pu", "", [], [], []⟩, []⟩],
          fun _ => .error "e"⟩
        emptyGraph
        ⟨"networking.k8s.io/v1", "NetworkPolicy", ⟨"np", "n", "npu", "", [], [], []⟩,
          ⟨[], []⟩, [], []⟩
        .ingressPolicy ⟨some ⟨[], []⟩, none, none⟩).2 = .ok none) ∧
    (relExistsLabeled
        (networkPolicyPeer
          ⟨"h", fun _ _ => .error "e", fun _ _ => .error "e",
            fun _ _ _ => .error "e",
            fun _ => .ok [⟨⟨"m", "", "", "", [], [], []⟩⟩]⟩
          emptyGraph
          ⟨"networking.k8s.io/v1", "NetworkPolicy", ⟨"np", "n", "npu", "", [], [], []⟩,
            ⟨[], []⟩, [], []⟩
          .ingressPolicy ⟨none, some ⟨[], []⟩, none⟩).1
        "m" "Ingress" "npu" = true) := by
  refine ⟨by decide, by decide, by decide, by decide, by rfl, by decide⟩

/-- C10: confirmed.  `CoreV1Graph.Service` answers `nil, nil` for every
service type other than `ClusterIP`, `LoadBalancer`, `ExternalName`, and
`RouteV1Graph.Route` passes that result straight to `Graph.Relationship`,
which reads `to.UID` unconditionally: a Route whose live-resolved target
Service has such a type (e.g. `NodePort`) ends in the nil dereference
outcome rather than an error return. -/
theorem c10_route_nil_service_deref (env : Env) (g : Graph) (obj : RouteData)
    (svc : ServiceData)
    (hget : env.getService obj.meta.nspace obj.toName = .ok svc)
    (h1 : svc.serviceType ≠ "ClusterIP") (h2 : svc.serviceType ≠ "LoadBalancer")
    (h3 : svc.serviceType ≠ "ExternalName") :
    (coreService env
        (graphNode env.host g (fromAPIVersionAndKind obj.apiVersion obj.kind) obj.meta).1
        svc).2 = .ok none ∧
    (routeRoute env g obj).2 = .nilDeref := by
  have hsvc : ∀ g2 : Graph, (coreService env g2 svc).2 = .ok none := by
    intro g2
    unfold coreService
    rw [if_neg h1, if_neg h2, if_neg h3]
  refine ⟨hsvc _, ?_⟩
  unfold routeRoute
  dsimp only
  rw [hget]
  dsimp only
  rw [hsvc]

unseal splitOnChar in
theorem c10_route_nil_service_deref_witness :
    (⟨"h", fun _ _ => .error "e",
        fun _ _ => .ok ⟨⟨"s", "n", "su", "", [], [], []⟩, "NodePort", ""⟩,
        fun _ _ _ => .error "e", fun _ => .error "e"⟩ : Env).getService "n" "s" =
      .ok ⟨⟨"s", "n", "su", "", [], [], []⟩, "NodePort", ""⟩ ∧
    ("NodePort" : String) ≠ "ClusterIP" ∧
    ("NodePort" : String) ≠ "LoadBalancer" ∧
    ("NodePort" : String) ≠ "ExternalName" ∧
    (routeRoute
        ⟨"h", fun _ _ => .error "e",
          fun _ _ => .ok ⟨⟨"s", "n", "su", "", [], [], []⟩, "NodePort", ""⟩,
          fun _ _ _ => .error "e", fun _ => .error "e"⟩
        emptyGraph
        ⟨"route.openshift.io/v1", "Route", ⟨"r", "n", "ru", "", [], [], []⟩, "s"⟩).2 =
      .nilDeref :=
  ⟨rfl, by decide, by decide, by decide,
   (c10_route_nil_service_deref
      ⟨"h", fun _ _ => .error "e",
        fun _ _ => .ok ⟨⟨"s", "n", "su", "", [], [], []⟩, "NodePort", ""⟩,
        fun _ _ _ => .error "e", fun _ => .error "e"⟩
      emptyGraph
      ⟨"route.openshift.io/v1", "Route", ⟨"r", "n", "ru", "", [], [], []⟩, "s"⟩
      ⟨⟨"s", "n", "su", "", [], [], []⟩, "NodePort", ""⟩
      rfl (by decide) (by decide) (by decide)).2⟩

theorem foldl_preserve_mem {α : Type} (Q : Graph → Prop) {step : Graph → α → Graph} :
    ∀ (l : List α), (∀ g x, x ∈ l → Q g → Q (step g x)) →
      ∀ (g : Graph), Q g → Q (l.foldl step g) := by
  intro l
  induction l with
  | nil => intro h g hg; exact hg
  | cons x xs ih =>
    intro h g hg
    exact ih (fun g2 y hy hq => h g2 y (List.mem_cons_of_mem _ hy) hq) _
      (h g x (List.mem_cons_self _ _) hg)

theorem any_false_mem {α : Type} (P : α → Bool) :
    ∀ (l : List α), l.any P = false → ∀ x ∈ l, P x = false := by
  intro l h x hx
  cases hb : P x with
  | false => rfl
  | true =>
    have ht : l.any P = true := List.any_eq_true.mpr ⟨x, hx, hb⟩
    rw [ht] at h
    cases h

theorem any_setA_false {α : Type} (P : String × α → Bool) (k : String) (v : α) :
    ∀ (l : List (String × α)), l.any P = false → P (k, v) = false →
      (setA l k v).any P = false := by
  intro l
  induction l with
  | nil => intro h hv; simpa [setA] using hv
  | cons q rest ih =>
    intro h hv
    rw [List.any_cons] at h
    have hq1 : P q = false := by
      cases hb : P q with
      | false => rfl
      | true => rw [hb] at h; simp at h
    have hrest : rest.any P = false := by
      cases hb : rest.any P with
      | false => rfl
      | true => rw [hb] at h; simp at h
    by_cases hk : q.1 = k
    · rw [setA, if_pos hk, List.any_cons]
      simp [hv, hrest]
    · rw [setA, if_neg hk, List.any_cons]
      simp [hq1, ih hrest hv]

/-- A `Graph.Relationship` call whose source UID differs from `u1` never makes
an ordered pair `(u1, u2)` appear. -/
theorem relPairExists_graphRelationship_ne (g : Graph) (a : Node) (lab : String)
    (b : Node) (u1 u2 : String) (hne : a.uid ≠ u1)
    (h : relPairExists g u1 u2 = false) :
    relPairExists (graphRelationship g a lab b).1 u1 u2 = false := by
  rcases graphRelationship_spec g a lab b with ⟨i, hf, he⟩ | ⟨hf, he⟩
  · rw [he]; exact h
  · rw [he]
    unfold relPairExists at *
    dsimp only
    refine any_setA_false _ _ _ _ h ?_
    dsimp only
    rw [List.any_append]
    have hbucket : ((getA g.relationships a.uid).getD []).any
        (fun r => r.fromRef.uid == u1 && r.toRef.uid == u2) = false := by
      cases hg2 : getA g.relationships a.uid with
      | none => simp
      | some bk =>
        rw [Option.getD_some]
        exact any_false_mem _ _ h (a.uid, bk) (getA_mem a.uid bk g.relationships hg2)
    rw [hbucket]
    simp [hne]

theorem graphNodeOwner_snd (host : String) (g : Graph) (gvk : GroupVersionKind)
    (obj : ObjectMeta) : (graphNodeOwner host g gvk obj).2 = nodeOf gvk obj := by
  unfold graphNodeOwner
  split <;> rfl

theorem graphNodeOwner_relationships (host : String) (g : Graph)
    (gvk : GroupVersionKind) (obj : ObjectMeta) :
    (graphNodeOwner host g gvk obj).1.relationships = g.relationships := by
  unfold graphNodeOwner
  split <;> rfl

/-- Prefix invariant of the owner walk of `Graph.Node`: while only owners with
other UIDs are processed, store well-formedness holds and the pair
`(oref.uid, obj.uid)` stays absent. -/
theorem ownerFold_prefix (host : String) (gvk : GroupVersionKind) (obj : ObjectMeta)
    (oref : OwnerReference) (step : Graph → OwnerReference → Graph)
    (hstep : step = fun acc oref2 =>
      (graphRelationship
        (graphNodeOwner host acc (fromAPIVersionAndKind oref2.apiVersion oref2.kind)
          { name := oref2.name, nspace := obj.nspace, uid := oref2.uid }).1
        (graphNodeOwner host acc (fromAPIVersionAndKind oref2.apiVersion oref2.kind)
          { name := oref2.name, nspace := obj.nspace, uid := oref2.uid }).2
        gvk.toAPIVersionAndKind.2 (nodeOf gvk obj)).1)
    (s : List OwnerReference) (huids : ∀ o ∈ s, o.uid ≠ oref.uid)
    (g1 : Graph) (hwf1 : relWF g1)
    (hfr1 : relPairExists g1 oref.uid obj.uid = false) :
    relWF (List.foldl step g1 s) ∧
    relPairExists (List.foldl step g1 s) oref.uid obj.uid = false := by
  subst hstep
  apply foldl_preserve_mem
    (fun gx => relWF gx ∧ relPairExists gx oref.uid obj.uid = false) s ?_ g1 ⟨hwf1, hfr1⟩
  intro g2 o ho hq
  dsimp only
  refine ⟨stepClosed_relWF.relOK _ _ _ _
    (graphNodeOwner_closed stepClosed_relWF host g2 _ _ hq.1), ?_⟩
  apply relPairExists_graphRelationship_ne
  · rw [graphNodeOwner_snd]
    exact huids o ho
  · unfold relPairExists
    rw [graphNodeOwner_relationships]
    exact hq.2

/-- The step for the owner reference itself, then the remaining owner steps:
the stub upsert is visible (when the owner gvk passes the Namespace guard) and
the labeled owner-to-child edge is created and survives. -/
theorem ownerFold_suffix (host : String) (gvk : GroupVersionKind) (obj : ObjectMeta)
    (oref : OwnerReference) (step : Graph → OwnerReference → Graph)
    (hstep : step = fun acc oref2 =>
      (graphRelationship
        (graphNodeOwner host acc (fromAPIVersionAndKind oref2.apiVersion oref2.kind)
          { name := oref2.name, nspace := obj.nspace, uid := oref2.uid }).1
        (graphNodeOwner host acc (fromAPIVersionAndKind oref2.apiVersion oref2.kind)
          { name := oref2.name, nspace := obj.nspace, uid := oref2.uid }).2
        gvk.toAPIVersionAndKind.2 (nodeOf gvk obj)).1)
    (t : List OwnerReference) (gs : Graph) (hwfs : relWF gs)
    (hfr : relPairExists gs oref.uid obj.uid = false)
    (hnsk : (fromAPIVersionAndKind oref.apiVersion oref.kind).groupKindString ≠
      "Namespace") :
    containsUID (List.foldl step (step gs oref) t) oref.uid = true ∧
    relExistsLabeled (List.foldl step (step gs oref) t) oref.uid
      gvk.toAPIVersionAndKind.2 obj.uid = true := by
  subst hstep
  constructor
  · apply @foldl_preserve OwnerReference (fun gx => containsUID gx oref.uid = true) _
      ?_ t _ ?_
    · intro g2 o hq
      exact (stepClosed_containsUID oref.uid).relOK _ _ _ _
        (graphNodeOwner_closed (stepClosed_containsUID oref.uid) host g2 _ _ hq)
    · dsimp only
      apply (stepClosed_containsUID oref.uid).relOK
      unfold graphNodeOwner
      rw [if_neg hnsk]
      dsimp only
      exact containsUID_insertNode_self _ _ _ _ _
  · apply @foldl_preserve OwnerReference
      (fun gx => relExistsLabeled gx oref.uid gvk.toAPIVersionAndKind.2 obj.uid = true) _
      ?_ t _ ?_
    · intro g2 o hq
      exact (stepClosed_relExistsLabeled _ _ _).relOK _ _ _ _
        (graphNodeOwner_closed (stepClosed_relExistsLabeled _ _ _) host g2 _ _ hq)
    · dsimp only
      have huid2 : (graphNodeOwner host gs
          (fromAPIVersionAndKind oref.apiVersion oref.kind)
          { name := oref.name, nspace := obj.nspace, uid := oref.uid }).2.uid =
          oref.uid := by
        rw [graphNodeOwner_snd]
        rfl
      have hwfo : relWF (graphNodeOwner host gs
          (fromAPIVersionAndKind oref.apiVersion oref.kind)
          { name := oref.name, nspace := obj.nspace, uid := oref.uid }).1 :=
        graphNodeOwner_closed stepClosed_relWF host gs _ _ hwfs
      have hfro : relPairExists (graphNodeOwner host gs
          (fromAPIVersionAndKind oref.apiVersion oref.kind)
          { name := oref.name, nspace := obj.nspace, uid := oref.uid }).1
          oref.uid obj.uid = false := by
        unfold relPairExists
        rw [graphNodeOwner_relationships]
        exact hfr
      have h0 := relExistsLabeled_create
        (graphNodeOwner host gs (fromAPIVersionAndKind oref.apiVersion oref.kind)
          { name := oref.name, nspace := obj.nspace, uid := oref.uid }).1
        (graphNodeOwner host gs (fromAPIVersionAndKind oref.apiVersion oref.kind)
          { name := oref.name, nspace := obj.nspace, uid := oref.uid }).2
        gvk.toAPIVersionAndKind.2 (nodeOf gvk obj) hwfo (by rw [huid2]; exact hfro)
      rw [huid2] at h0
      exact h0

unseal splitOnChar in
/-- C7 counterexample: an object whose only owner reference is a `v1/Namespace`
reference.  `Graph.Node` creates the owner-to-child relationship (labeled with
the child kind) but never upserts a node for that owner, because the recursive
owner upsert goes through the group-kind Namespace guard: the claimed
one-node-per-owner-reference upsert does not happen. -/
theorem c7_counterexample :
    containsUID
      (graphNode "h" emptyGraph (fromAPIVersionAndKind "v1" "Pod")
        ⟨"p", "n", "pu", "", [], [], [⟨"v1", "Namespace", "n", "nsu"⟩]⟩).1
      "nsu" = false ∧
    getRel
      (graphNode "h" emptyGraph (fromAPIVersionAndKind "v1" "Pod")
        ⟨"p", "n", "pu", "", [], [], [⟨"v1", "Namespace", "n", "nsu"⟩]⟩).1
      ("nsu", 0) = some ⟨⟨"Namespace", "nsu"⟩, "Pod", ⟨"Pod", "pu"⟩, []⟩ :=
  ⟨by decide, by decide⟩

/-- C7: corrected.  For an object stored by `Graph.Node`, every owner
reference yields an owner-to-child relationship labeled with the child kind
(shown here when the ordered pair is fresh, so the dedup guard appends), and
yields a stub-node upsert only when the owner gvk is not group-kind
`Namespace`: a `v1/Namespace` owner gets the relationship but no stored node
(see the counterexample), which corrects the unconditional
one-node-per-owner-reference claim. -/
theorem c7_owner_upsert (host : String) (g : Graph) (gvk : GroupVersionKind)
    (obj : ObjectMeta) (oref : OwnerReference)
    (hmem : oref ∈ obj.ownerReferences)
    (hg : gvk.groupKindString ≠ "Namespace")
    (hwf : relWF g)
    (hnsk : (fromAPIVersionAndKind oref.apiVersion oref.kind).groupKindString ≠
      "Namespace")
    (hfresh : relPairExists g oref.uid obj.uid = false)
    (hnodup : (obj.ownerReferences.map (fun o => o.uid)).Nodup) :
    containsUID (graphNode host g gvk obj).1 oref.uid = true ∧
    relExistsLabeled (graphNode host g gvk obj).1 oref.uid
      gvk.toAPIVersionAndKind.2 obj.uid = true := by
  rcases List.append_of_mem hmem with ⟨s, t, hsplit⟩
  have huids : ∀ o ∈ s, o.uid ≠ oref.uid := by
    rw [hsplit] at hnodup
    simp only [List.map_append, List.map_cons, List.nodup_append] at hnodup
    intro o ho heq
    exact hnodup.2.2 (List.mem_map_of_mem _ ho)
      (by rw [heq]; exact List.mem_cons_self _ _)
  have hwf1 : relWF (insertNode g (effCluster host obj) obj.nspace obj.uid
      (nodeOf gvk obj)) :=
    stepClosed_relWF.insOK _ _ _ _ _ (nodeOf_notCoreNamespace gvk obj hg) hwf
  have hfresh1 : relPairExists (insertNode g (effCluster host obj) obj.nspace obj.uid
      (nodeOf gvk obj)) oref.uid obj.uid = false := hfresh
  unfold graphNode
  rw [if_neg hg]
  dsimp only
  rw [hsplit, List.foldl_append, List.foldl_cons]
  have hpre := ownerFold_prefix host gvk obj oref _ rfl s huids
    (insertNode g (effCluster host obj) obj.nspace obj.uid (nodeOf gvk obj))
    hwf1 hfresh1
  exact ownerFold_suffix host gvk obj oref _ rfl t _ hpre.1 hpre.2 hnsk

unseal splitOnChar in
theorem c7_owner_upsert_witness :
    (⟨"apps/v1", "ReplicaSet", "rs", "rsu"⟩ : OwnerReference) ∈
      (⟨"p", "n", "pu", "", [], [],
        [⟨"apps/v1", "ReplicaSet", "rs", "rsu"⟩]⟩ : ObjectMeta).ownerReferences ∧
    (fromAPIVersionAndKind "v1" "Pod").groupKindString ≠ "Namespace" ∧
    relWF emptyGraph ∧
    (fromAPIVersionAndKind "apps/v1" "ReplicaSet").groupKindString ≠ "Namespace" ∧
    relPairExists emptyGraph "rsu" "pu" = false ∧
    containsUID
      (graphNode "h" emptyGraph (fromAPIVersionAndKind "v1" "Pod")
        ⟨"p", "n", "pu", "", [], [], [⟨"apps/v1", "ReplicaSet", "rs", "rsu"⟩]⟩).1
      "rsu" = true ∧
    relExistsLabeled
      (graphNode "h" emptyGraph (fromAPIVersionAndKind "v1" "Pod")
        ⟨"p", "n", "pu", "", [], [], [⟨"apps/v1", "ReplicaSet", "rs", "rsu"⟩]⟩).1
      "rsu" "Pod" "pu" = true :=
  ⟨by decide, by decide, relWF_emptyGraph, by decide, by decide,
   (c7_owner_upsert "h" emptyGraph (fromAPIVersionAndKind "v1" "Pod")
      ⟨"p", "n", "pu", "", [], [], [⟨"apps/v1", "ReplicaSet", "rs", "rsu"⟩]⟩
      ⟨"apps/v1", "ReplicaSet", "rs", "rsu"⟩
      (by decide) (by decide) relWF_emptyGraph (by decide) (by decide) (by decide)).1,
   (c7_owner_upsert "h" emptyGraph (fromAPIVersionAndKind "v1" "Pod")
      ⟨"p", "n", "pu", "", [], [], [⟨"apps/v1", "ReplicaSet", "rs", "rsu"⟩]⟩
      ⟨"apps/v1", "ReplicaSet", "rs", "rsu"⟩
      (by decide) (by decide) relWF_emptyGraph (by decide) (by decide) (by decide)).2⟩

theorem foldlDB_preserve {α : Type} (Q : DBState → Prop) {step : DBState → α → DBState} :
    ∀ (l : List α), (∀ st x, Q st → Q (step st x)) →
      ∀ (st : DBState), Q st → Q (l.foldl step st) := by
  intro l
  induction l with
  | nil => intro h st hst; exact hst
  | cons x xs ih =>
    intro h st hst
    exact ih (fun st2 y hy => h st2 y hy) _ (h st x hst)

theorem insertDBEdge_dbNodes (st : DBState) (e : DBEdge) :
    (insertDBEdge st e).dbNodes = st.dbNodes := by
  unfold insertDBEdge
  split <;> rfl

theorem mem_insertDBEdge (st : DBState) (e e2 : DBEdge) :
    e2 ∈ (insertDBEdge st e).dbEdges ↔ e2 ∈ st.dbEdges ∨ e2 = e := by
  unfold insertDBEdge
  split
  · next hfound =>
    constructor
    · exact Or.inl
    · rintro (h | rfl)
      · exact h
      · rcases List.any_eq_true.mp hfound with ⟨x, hx, hxe⟩
        have hxe2 : x = e2 := by simpa using hxe
        rwa [← hxe2]
  · simp

theorem clusterRootStmt_dbNodes (st : DBState) (c : String) :
    (clusterRootStmt st c).dbNodes = st.dbNodes := by
  unfold clusterRootStmt
  split
  · rfl
  · dsimp only
    refine foldlDB_preserve (fun st2 => st2.dbNodes = st.dbNodes) _ ?_ st rfl
    intro st2 n h2
    rw [insertDBEdge_dbNodes, h2]

theorem nsRootStmt_dbNodes (st : DBState) (ns : String) :
    (nsRootStmt st ns).dbNodes = st.dbNodes := by
  unfold nsRootStmt
  split
  · rfl
  · dsimp only
    refine foldlDB_preserve (fun st2 => st2.dbNodes = st.dbNodes) _ ?_ st rfl
    intro st2 n h2
    rw [insertDBEdge_dbNodes, h2]

theorem clusterRootStmt_edges (st : DBState) (c : String) (e : DBEdge)
    (he : e ∈ (clusterRootStmt st c).dbEdges) :
    e ∈ st.dbEdges ∨ (e.label = "Cluster" ∧ e.toKind = "Cluster") := by
  unfold clusterRootStmt at he
  split at he
  · exact Or.inl he
  · next cl hcl =>
    have hclk : cl.kindLabel = "Cluster" := by
      have hp := List.find?_some hcl
      simp at hp
      exact hp.1
    dsimp only at he
    refine foldlDB_preserve
      (fun st2 => ∀ e2 ∈ st2.dbEdges,
        e2 ∈ st.dbEdges ∨ (e2.label = "Cluster" ∧ e2.toKind = "Cluster"))
      _ ?_ st (fun e2 h2 => Or.inl h2) e he
    intro st2 n h2 e2 he2
    rcases (mem_insertDBEdge _ _ _).mp he2 with h | rfl
    · exact h2 e2 h
    · exact Or.inr ⟨rfl, hclk⟩

theorem nsRootStmt_edges (st : DBState) (ns : String) (e : DBEdge)
    (he : e ∈ (nsRootStmt st ns).dbEdges) :
    e ∈ st.dbEdges ∨ (e.label = "Namespace" ∧ e.toKind = "Namespace") := by
  unfold nsRootStmt at he
  split at he
  · exact Or.inl he
  · next nsn hns =>
    have hnsk : nsn.kindLabel = "Namespace" := by
      have hp := List.find?_some hns
      simp at hp
      exact hp.1
    dsimp only at he
    refine foldlDB_preserve
      (fun st2 => ∀ e2 ∈ st2.dbEdges,
        e2 ∈ st.dbEdges ∨ (e2.label = "Namespace" ∧ e2.toKind = "Namespace"))
      _ ?_ st (fun e2 h2 => Or.inl h2) e he
    intro st2 n h2 e2 he2
    rcases (mem_insertDBEdge _ _ _).mp he2 with h | rfl
    · exact h2 e2 h
    · exact Or.inr ⟨rfl, hnsk⟩

theorem clusterRootStmt_edges_mono (st : DBState) (c : String) (e : DBEdge)
    (he : e ∈ st.dbEdges) : e ∈ (clusterRootStmt st c).dbEdges := by
  unfold clusterRootStmt
  split
  · exact he
  · dsimp only
    refine foldlDB_preserve (fun st2 => e ∈ st2.dbEdges) _ ?_ st he
    intro st2 n h2
    exact (mem_insertDBEdge _ _ _).mpr (Or.inl h2)

theorem nsRootStmt_edges_mono (st : DBState) (ns : String) (e : DBEdge)
    (he : e ∈ st.dbEdges) : e ∈ (nsRootStmt st ns).dbEdges := by
  unfold nsRootStmt
  split
  · exact he
  · dsimp only
    refine foldlDB_preserve (fun st2 => e ∈ st2.dbEdges) _ ?_ st he
    intro st2 n h2
    exact (mem_insertDBEdge _ _ _).mpr (Or.inl h2)

theorem cypherFinalize_dbNodes (g : Graph) (st : DBState) :
    (cypherFinalize g st).dbNodes = st.dbNodes := by
  unfold cypherFinalize
  refine foldlDB_preserve (fun st2 => st2.dbNodes = st.dbNodes) _ ?_ st rfl
  intro st2 cpair h2
  dsimp only
  refine foldlDB_preserve (fun st3 => st3.dbNodes = st.dbNodes) _ ?_ _ ?_
  · intro st3 nsb h3
    split
    · exact h3
    · rw [nsRootStmt_dbNodes, h3]
  · dsimp only
    rw [clusterRootStmt_dbNodes, h2]

theorem cypherFinalize_edges (g : Graph) (st : DBState) (e : DBEdge)
    (he : e ∈ (cypherFinalize g st).dbEdges) :
    e ∈ st.dbEdges ∨ (e.label = "Cluster" ∧ e.toKind = "Cluster") ∨
      (e.label = "Namespace" ∧ e.toKind = "Namespace") := by
  unfold cypherFinalize at he
  refine foldlDB_preserve
    (fun st2 => ∀ e2 ∈ st2.dbEdges,
      e2 ∈ st.dbEdges ∨ (e2.label = "Cluster" ∧ e2.toKind = "Cluster") ∨
        (e2.label = "Namespace" ∧ e2.toKind = "Namespace"))
    _ ?_ st (fun e2 h2 => Or.inl h2) e he
  intro st2 cpair h2
  dsimp only
  refine foldlDB_preserve
    (fun st3 => ∀ e2 ∈ st3.dbEdges,
      e2 ∈ st.dbEdges ∨ (e2.label = "Cluster" ∧ e2.toKind = "Cluster") ∨
        (e2.label = "Namespace" ∧ e2.toKind = "Namespace"))
    _ ?_ _ ?_
  · intro st3 nsb h3
    split
    · exact h3
    · intro e2 he2
      rcases nsRootStmt_edges _ _ _ he2 with h | hs
      · exact h3 e2 h
      · exact Or.inr (Or.inr hs)
  · intro e2 he2
    rcases clusterRootStmt_edges _ _ _ he2 with h | hs
    · exact h2 e2 h
    · exact Or.inr (Or.inl hs)

theorem cypherFinalize_edges_mono (g : Graph) (st : DBState) (e : DBEdge)
    (he : e ∈ st.dbEdges) : e ∈ (cypherFinalize g st).dbEdges := by
  unfold cypherFinalize
  refine foldlDB_preserve (fun st2 => e ∈ st2.dbEdges) _ ?_ st he
  intro st2 cpair h2
  dsimp only
  refine foldlDB_preserve (fun st3 => e ∈ st3.dbEdges) _ ?_ _
    (clusterRootStmt_edges_mono st2 cpair.1 e h2)
  intro st3 nsb h3
  split
  · exact h3
  · exact nsRootStmt_edges_mono st3 nsb.1 e h3

unseal splitOnChar in
/-- C4 counterexample: a store holding one namespaced Pod with no
relationships.  After the full cypher run the Pod database node still has no
incoming relationship — the finalize statements read
`MERGE (node)-[:Namespace]->(ns)` / `MERGE (node)-[:Cluster]->(cl)`, so the
orphan is linked *to* its namespace root by an outgoing edge, not *from* it:
the claimed every-node-has-an-incoming-relationship invariant fails. -/
theorem c4_counterexample :
    (⟨"Pod", "pu", "p", some "h", some "n"⟩ : DBNode) ∈
      (cypherRun (graphNode "h" emptyGraph (fromAPIVersionAndKind "v1" "Pod")
        ⟨"p", "n", "pu", "", [], [], []⟩).1).dbNodes ∧
    resourceLabel (⟨"Pod", "pu", "p", some "h", some "n"⟩ : DBNode) ∧
    hasIncoming
      (cypherRun (graphNode "h" emptyGraph (fromAPIVersionAndKind "v1" "Pod")
        ⟨"p", "n", "pu", "", [], [], []⟩).1)
      ⟨"Pod", "pu", "p", some "h", some "n"⟩ = false ∧
    (⟨"Pod", "pu", "Namespace", "Namespace", "n"⟩ : DBEdge) ∈
      (cypherRun (graphNode "h" emptyGraph (fromAPIVersionAndKind "v1" "Pod")
        ⟨"p", "n", "pu", "", [], [], []⟩).1).dbEdges :=
  ⟨by decide, ⟨by decide, by decide⟩, by decide, by decide⟩

/-- C4: corrected.  The finalize block never changes the node set and never
gives a resource node (a node labeled neither `Cluster` nor `Namespace`) an
incoming relationship: every edge it adds is labeled `Cluster` or `Namespace`
and points INTO the cluster-root or namespace-root node (the template merges
`(node)-[:Cluster]->(cl)` and `(node)-[:Namespace]->(ns)`), so orphans end up
with an outgoing link to their root, not an incoming one as claimed. -/
theorem c4_finalize_direction (g : Graph) (st : DBState) (n : DBNode)
    (hn : resourceLabel n) :
    (cypherFinalize g st).dbNodes = st.dbNodes ∧
    (∀ e ∈ (cypherFinalize g st).dbEdges,
      e ∈ st.dbEdges ∨ (e.label = "Cluster" ∧ e.toKind = "Cluster") ∨
        (e.label = "Namespace" ∧ e.toKind = "Namespace")) ∧
    hasIncoming (cypherFinalize g st) n = hasIncoming st n := by
  refine ⟨cypherFinalize_dbNodes g st, fun e he => cypherFinalize_edges g st e he, ?_⟩
  cases hb : hasIncoming st n with
  | true =>
    rcases List.any_eq_true.mp hb with ⟨e, hme, hpe⟩
    exact List.any_eq_true.mpr ⟨e, cypherFinalize_edges_mono g st e hme, hpe⟩
  | false =>
    cases hb2 : hasIncoming (cypherFinalize g st) n with
    | false => rfl
    | true =>
      exfalso
      rcases List.any_eq_true.mp hb2 with ⟨e, hme, hpe⟩
      have hpe2 : e.toKind = n.kindLabel ∧ e.toUID = n.uid := by simpa using hpe
      rcases cypherFinalize_edges g st e hme with h | ⟨-, hck⟩ | ⟨-, hnk⟩
      · have hb3 : hasIncoming st n = true := List.any_eq_true.mpr ⟨e, h, hpe⟩
        rw [hb3] at hb
        cases hb
      · exact hn.1 (by rw [← hpe2.1, hck])
      · exact hn.2 (by rw [← hpe2.1, hnk])

unseal splitOnChar in
theorem c4_finalize_direction_witness :
    resourceLabel (⟨"Pod", "pu", "p", some "h", some "n"⟩ : DBNode) ∧
    (cypherFinalize
        (graphNode "h" emptyGraph (fromAPIVersionAndKind "v1" "Pod")
          ⟨"p", "n", "pu", "", [], [], []⟩).1
        (renderEdges
          (graphNode "h" emptyGraph (fromAPIVersionAndKind "v1" "Pod")
            ⟨"p", "n", "pu", "", [], [], []⟩).1
          (renderNodes
            (graphNode "h" emptyGraph (fromAPIVersionAndKind "v1" "Pod")
              ⟨"p", "n", "pu", "", [], [], []⟩).1))).dbNodes =
      (renderEdges
        (graphNode "h" emptyGraph (fromAPIVersionAndKind "v1" "Pod")
          ⟨"p", "n", "pu", "", [], [], []⟩).1
        (renderNodes
          (graphNode "h" emptyGraph (fromAPIVersionAndKind "v1" "Pod")
            ⟨"p", "n", "pu", "", [], [], []⟩).1)).dbNodes ∧
    hasIncoming
      (cypherFinalize
        (graphNode "h" emptyGraph (fromAPIVersionAndKind "v1" "Pod")
          ⟨"p", "n", "pu", "", [], [], []⟩).1
        (renderEdges
          (graphNode "h" emptyGraph (fromAPIVersionAndKind "v1" "Pod")
            ⟨"p", "n", "pu", "", [], [], []⟩).1
          (renderNodes
            (graphNode "h" emptyGraph (fromAPIVersionAndKind "v1" "Pod")
              ⟨"p", "n", "pu", "", [], [], []⟩).1)))
      ⟨"Pod", "pu", "p", some "h", some "n"⟩ =
    hasIncoming
      (renderEdges
        (graphNode "h" emptyGraph (fromAPIVersionAndKind "v1" "Pod")
          ⟨"p", "n", "pu", "", [], [], []⟩).1
        (renderNodes
          (graphNode "h" emptyGraph (fromAPIVersionAndKind "v1" "Pod")
            ⟨"p", "n", "pu", "", [], [], []⟩).1))
      ⟨"Pod", "pu", "p", some "h", some "n"⟩ :=
  ⟨⟨by decide, by decide⟩,
   (c4_finalize_direction
      (graphNode "h" emptyGraph (fromAPIVersionAndKind "v1" "Pod")
        ⟨"p", "n", "pu", "", [], [], []⟩).1
      (renderEdges
        (graphNode "h" emptyGraph (fromAPIVersionAndKind "v1" "Pod")
          ⟨"p", "n", "pu", "", [], [], []⟩).1
        (renderNodes
          (graphNode "h" emptyGraph (fromAPIVersionAndKind "v1" "Pod")
            ⟨"p", "n", "pu", "", [], [], []⟩).1))
      ⟨"Pod", "pu", "p", some "h", some "n"⟩ ⟨by decide, by decide⟩).1,
   (c4_finalize_direction
      (graphNode "h" emptyGraph (fromAPIVersionAndKind "v1" "Pod")
        ⟨"p", "n", "pu", "", [], [], []⟩).1
      (renderEdges
        (graphNode "h" emptyGraph (fromAPIVersionAndKind "v1" "Pod")
          ⟨"p", "n", "pu", "", [], [], []⟩).1
        (renderNodes
          (graphNode "h" emptyGraph (fromAPIVersionAndKind "v1" "Pod")
            ⟨"p", "n", "pu", "", [], [], []⟩).1))
      ⟨"Pod", "pu", "p", some "h", some "n"⟩ ⟨by decide, by decide⟩).2.2⟩

end KubectlGraph
